import Mathlib

/-!
A shallow embedding of the vote/karma/accept-answer core of the SaladOverflow
backend (src/backend/app): the relational rows that the handlers touch, the
expiring cache, and the write handlers `vote_on_post`, `vote_on_comment`,
`accept_answer`, `create_comment`, `update_profile` and `register_user`,
translated from src/backend/app/routers/posts.py, users.py and auth.py.

Modelling conventions:
* Tables are lists of rows; `db.query(T).filter(pred).first()` is
  `List.find? pred`, and a mutation of the fetched ORM object is
  `updateFirst pred f` (update of the first row matching the query).
* `db.delete(row)` for a row fetched by `find? pred` is `List.eraseP pred`.
* Machine integers are `Int`/`Nat` (counters never overflow in the claims).
* `HTTPException(404/403/400, detail)` is `Err.notFound/forbidden/badRequest`;
  the spec's `InvalidOperation` is the 400 case.
* Both vote routes declare `response_model=VoteResponse` (schemas/posts.py);
  FastAPI serializes the route's return value against that model outside the
  body's try/except, after the commit. The `vote_on_post`/`vote_on_comment`
  definitions embed the handler bodies; `vote_on_post_endpoint` and
  `vote_on_comment_endpoint` compose them with that serialization step
  (`serializeVoteOutcome`), which is where the toggle-off dict fails.
* The redis cache is an association list of string keys; `delete` is an exact
  filter and a `scan_iter(match="p*")`+`delete` loop is a prefix filter.
  Every cache access in the source is wrapped in try/except; the boolean
  `cacheFail` models the cache raising on every operation, in which case the
  swept cache block leaves the cache untouched and the handler continues.
* Fire-and-forget e-mail notifications read state but never mutate the store
  or the response, so they do not appear in the state transition.
-/

namespace SaladOverflow

/-- `vote_type ∈ {upvote, downvote}` (models/posts.py `VoteType`). -/
inductive VoteType
  | upvote
  | downvote
deriving DecidableEq, Repr

/-- models/posts.py `PostType`. -/
inductive PostType
  | question
  | discussion
  | announcement
deriving DecidableEq, Repr

/-- The error outcomes raised by the handlers: `HTTPException(404, d)`,
`HTTPException(403, d)` and `HTTPException(400, d)`.  The spec's error
taxonomy maps NotFound to 404, Forbidden to 403 and InvalidOperation to 400. -/
inductive Err
  | notFound (detail : String)
  | forbidden (detail : String)
  | badRequest (detail : String)
deriving DecidableEq, Repr

/-- models/user.py `User` — the columns the embedded handlers read or write. -/
structure User where
  id : Nat
  email : String := ""
  username : String := ""
  display_name : String := ""
  full_name : Option String := none
  bio : Option String := none
  name : Option String := none
  avatar_url : Option String := none
  banner_url : Option String := none
  website_url : Option String := none
  location : Option String := none
  twitter_handle : Option String := none
  github_username : Option String := none
  linkedin_url : Option String := none
  password_hash : Option String := none
  is_active : Bool := true
  is_verified : Bool := false
  post_count : Int := 0
  comment_count : Int := 0
  karma_score : Int := 0
  profile_public : Bool := true
  show_email : Bool := false
  show_real_name : Bool := false
deriving DecidableEq, Repr

/-- models/posts.py `Post` — the columns the embedded handlers read or write. -/
structure Post where
  id : Nat
  title : String := ""
  content : String := ""
  post_type : PostType := .question
  author_id : Nat
  view_count : Int := 0
  upvote_count : Int := 0
  downvote_count : Int := 0
  comment_count : Int := 0
  answer_count : Int := 0
  is_answered : Bool := false
  accepted_answer_id : Option Nat := none
  is_locked : Bool := false
  is_deleted : Bool := false
deriving DecidableEq, Repr

/-- models/posts.py `Comment` — the columns the embedded handlers read or write. -/
structure Comment where
  id : Nat
  content : String := ""
  content_plain : String := ""
  post_id : Nat
  author_id : Nat
  parent_id : Option Nat := none
  upvote_count : Int := 0
  downvote_count : Int := 0
  reply_count : Int := 0
  is_answer : Bool := false
  is_accepted : Bool := false
  has_code : Bool := false
  has_images : Bool := false
  is_deleted : Bool := false
deriving DecidableEq, Repr

/-- models/posts.py `PostVote`: one row per (user, post) vote. -/
structure PostVote where
  post_id : Nat
  user_id : Nat
  vote_type : VoteType
deriving DecidableEq, Repr

/-- models/posts.py `CommentVote`: one row per (user, comment) vote. -/
structure CommentVote where
  comment_id : Nat
  user_id : Nat
  vote_type : VoteType
deriving DecidableEq, Repr

/-- models/tokens.py `EmailVerificationToken` — the fields register_user sets. -/
structure EmailVerificationToken where
  user_id : Nat
  email : String
  token : String
deriving DecidableEq, Repr

/-- The persistent store: the tables the embedded handlers touch, plus the
autoincrement counters for freshly inserted rows. -/
structure DB where
  users : List User := []
  posts : List Post := []
  comments : List Comment := []
  post_votes : List PostVote := []
  comment_votes : List CommentVote := []
  email_tokens : List EmailVerificationToken := []
  next_user_id : Nat := 1
  next_comment_id : Nat := 1
deriving DecidableEq, Repr

/-- The expiring cache: an association list of string keys (TTLs are not
modelled; only presence/absence of a key matters to the claims). -/
abbrev Cache := List (String × String)

/-- `redis.get(key)` (up to deserialization). -/
def cacheGet (c : Cache) (k : String) : Option String :=
  (c.find? (fun kv => kv.1 == k)).map (·.2)

/-- `redis.delete(key)`: exact-key delete. -/
def cacheDelete (c : Cache) (k : String) : Cache :=
  c.filter (fun kv => kv.1 != k)

/-- `for key in redis.scan_iter(match=pre ++ "*"): redis.delete(key)`:
delete every key with the given prefix. -/
def cacheScanDelete (c : Cache) (pre : String) : Cache :=
  c.filter (fun kv => !(pre.isPrefixOf kv.1))

/-- Update the first element satisfying `p` (the ORM pattern
`row = query.filter(pred).first(); mutate(row)`); the rest of the list is
untouched. -/
def updateFirst (p : α → Bool) (f : α → α) : List α → List α
  | [] => []
  | x :: xs => if p x then f x :: xs else x :: updateFirst p f xs

/-- Mutation of the post fetched by
`db.query(Post).filter(Post.id == post_id, Post.is_deleted == False).first()`. -/
def updLivePost (db : DB) (post_id : Nat) (f : Post → Post) : DB :=
  { db with posts := updateFirst (fun p => p.id == post_id && !p.is_deleted) f db.posts }

/-- Mutation of the user fetched by `db.query(User).filter(User.id == uid).first()`,
guarded by the source's `if user:` truthiness check on the fetched object. -/
def updUserIfSome (db : DB) (user : Option User) (f : User → User) : DB :=
  match user with
  | some u => { db with users := updateFirst (fun x => x.id == u.id) f db.users }
  | none => db

/-- The value the vote handler body returns on success: either the dict
`{"message": "Vote removed", "action": "removed"}` or
`VoteResponse.model_validate(vote)` carrying the resulting vote row's type.
Serialization against the route's declared response model happens after the
body returns — see `serializeVoteOutcome` below. -/
inductive VoteOutcome
  | removed (message : String) (action : String)
  | voted (vote_type : VoteType)
deriving DecidableEq, Repr

/-- The cache-invalidation block that all three mutation branches of
`vote_on_post` run after commit (posts.py lines 851-861, 885-895, 919-929). -/
def postVoteCacheSweep (cacheFail : Bool) (c : Cache) (post_id : Nat)
    (post_author : Option User) : Cache :=
  if cacheFail then c else
    let c := cacheDelete c ("post:" ++ toString post_id)
    let c := cacheScanDelete c "posts:list:"
    match post_author with
    | some a =>
        let c := cacheDelete c ("user:profile:" ++ a.display_name)
        cacheScanDelete c "users:top:"
    | none => c

/-- Shallow embedding of `vote_on_post` (posts.py lines 800-941). -/
def vote_on_post (db : DB) (c : Cache) (post_id : Nat) (current_user : User)
    (vote_type : VoteType) (cacheFail : Bool) :
    Except Err (DB × Cache × VoteOutcome) :=
  match db.posts.find? (fun p => p.id == post_id && !p.is_deleted) with
  | none => .error (.notFound "Post not found")
  | some post =>
    let post_author := db.users.find? (fun u => u.id == post.author_id)
    match db.post_votes.find?
        (fun v => v.post_id == post_id && v.user_id == current_user.id) with
    | some existing_vote =>
      if existing_vote.vote_type == vote_type then
        -- Remove vote (toggle off)
        let db :=
          if existing_vote.vote_type == VoteType.upvote then
            updUserIfSome
              (updLivePost db post_id (fun p => { p with upvote_count := p.upvote_count - 1 }))
              post_author (fun u => { u with karma_score := u.karma_score - 10 })
          else
            updUserIfSome
              (updLivePost db post_id (fun p => { p with downvote_count := p.downvote_count - 1 }))
              post_author (fun u => { u with karma_score := u.karma_score + 2 })
        let db := { db with post_votes := db.post_votes.eraseP (fun v => v.post_id == post_id && v.user_id == current_user.id) }
        let c := postVoteCacheSweep cacheFail c post_id post_author
        .ok (db, c, .removed "Vote removed" "removed")
      else
        -- Change vote type (old type is existing_vote.vote_type)
        let pv := updateFirst
            (fun v => v.post_id == post_id && v.user_id == current_user.id)
            (fun v => { v with vote_type := vote_type }) db.post_votes
        let db := { db with post_votes := pv }
        let db :=
          if existing_vote.vote_type == VoteType.upvote then
            updUserIfSome
              (updLivePost db post_id (fun p =>
                { p with upvote_count := p.upvote_count - 1,
                         downvote_count := p.downvote_count + 1 }))
              post_author (fun u => { u with karma_score := u.karma_score - 10 - 2 })
          else
            updUserIfSome
              (updLivePost db post_id (fun p =>
                { p with downvote_count := p.downvote_count - 1,
                         upvote_count := p.upvote_count + 1 }))
              post_author (fun u => { u with karma_score := u.karma_score + 2 + 10 })
        let c := postVoteCacheSweep cacheFail c post_id post_author
        .ok (db, c, .voted vote_type)
    | none =>
      -- Create new vote
      let db := { db with post_votes :=
          db.post_votes ++ [⟨post_id, current_user.id, vote_type⟩] }
      let db :=
        if vote_type == VoteType.upvote then
          updUserIfSome
            (updLivePost db post_id (fun p => { p with upvote_count := p.upvote_count + 1 }))
            post_author (fun u => { u with karma_score := u.karma_score + 10 })
        else
          updUserIfSome
            (updLivePost db post_id (fun p => { p with downvote_count := p.downvote_count + 1 }))
            post_author (fun u => { u with karma_score := u.karma_score - 2 })
      let c := postVoteCacheSweep cacheFail c post_id post_author
      .ok (db, c, .voted vote_type)

/-- Mutation of the comment fetched by
`db.query(Comment).filter(Comment.id == comment_id, Comment.is_deleted == False).first()`. -/
def updLiveComment (db : DB) (comment_id : Nat) (f : Comment → Comment) : DB :=
  { db with comments :=
      updateFirst (fun cm => cm.id == comment_id && !cm.is_deleted) f db.comments }

/-- The cache-invalidation block of `vote_on_comment` (posts.py lines
1004-1017, 1041-1054, 1080-1091). -/
def commentVoteCacheSweep (cacheFail : Bool) (c : Cache) (comment_post_id : Nat)
    (comment_author : Option User) : Cache :=
  if cacheFail then c else
    let c := cacheScanDelete c ("post:" ++ toString comment_post_id ++ ":comments:")
    match comment_author with
    | some a =>
        let c := cacheDelete c ("user:profile:" ++ a.display_name)
        cacheScanDelete c "users:top:"
    | none => c

/-- Shallow embedding of `vote_on_comment` (posts.py lines 944-1103). -/
def vote_on_comment (db : DB) (c : Cache) (comment_id : Nat) (current_user : User)
    (vote_type : VoteType) (cacheFail : Bool) :
    Except Err (DB × Cache × VoteOutcome) :=
  match db.comments.find? (fun cm => cm.id == comment_id && !cm.is_deleted) with
  | none => .error (.notFound "Comment not found")
  | some comment =>
    let comment_author := db.users.find? (fun u => u.id == comment.author_id)
    match db.comment_votes.find?
        (fun v => v.comment_id == comment_id && v.user_id == current_user.id) with
    | some existing_vote =>
      if existing_vote.vote_type == vote_type then
        -- Remove vote (toggle off)
        let db :=
          if existing_vote.vote_type == VoteType.upvote then
            updUserIfSome
              (updLiveComment db comment_id (fun cm => { cm with upvote_count := cm.upvote_count - 1 }))
              comment_author (fun u => { u with karma_score := u.karma_score - 5 })
          else
            updUserIfSome
              (updLiveComment db comment_id (fun cm => { cm with downvote_count := cm.downvote_count - 1 }))
              comment_author (fun u => { u with karma_score := u.karma_score + 1 })
        let db := { db with comment_votes := db.comment_votes.eraseP (fun v => v.comment_id == comment_id && v.user_id == current_user.id) }
        let c := commentVoteCacheSweep cacheFail c comment.post_id comment_author
        .ok (db, c, .removed "Vote removed" "removed")
      else
        -- Change vote type
        let cv := updateFirst
            (fun v => v.comment_id == comment_id && v.user_id == current_user.id)
            (fun v => { v with vote_type := vote_type }) db.comment_votes
        let db := { db with comment_votes := cv }
        let db :=
          if existing_vote.vote_type == VoteType.upvote then
            updUserIfSome
              (updLiveComment db comment_id (fun cm =>
                { cm with upvote_count := cm.upvote_count - 1,
                          downvote_count := cm.downvote_count + 1 }))
              comment_author (fun u => { u with karma_score := u.karma_score - 5 - 1 })
          else
            updUserIfSome
              (updLiveComment db comment_id (fun cm =>
                { cm with downvote_count := cm.downvote_count - 1,
                          upvote_count := cm.upvote_count + 1 }))
              comment_author (fun u => { u with karma_score := u.karma_score + 1 + 5 })
        let c := commentVoteCacheSweep cacheFail c comment.post_id comment_author
        .ok (db, c, .voted vote_type)
    | none =>
      -- Create new vote
      let db := { db with comment_votes :=
          db.comment_votes ++ [⟨comment_id, current_user.id, vote_type⟩] }
      let db :=
        if vote_type == VoteType.upvote then
          updUserIfSome
            (updLiveComment db comment_id (fun cm => { cm with upvote_count := cm.upvote_count + 1 }))
            comment_author (fun u => { u with karma_score := u.karma_score + 5 })
        else
          updUserIfSome
            (updLiveComment db comment_id (fun cm => { cm with downvote_count := cm.downvote_count + 1 }))
            comment_author (fun u => { u with karma_score := u.karma_score - 1 })
      let c := commentVoteCacheSweep cacheFail c comment.post_id comment_author
      .ok (db, c, .voted vote_type)

/-- The success payload of `accept_answer`:
`{"message": ..., "is_accepted": bool}`. -/
structure AcceptResult where
  message : String
  is_accepted : Bool
deriving DecidableEq, Repr

/-- The cache-invalidation block of `accept_answer` (posts.py lines
1166-1176 and 1207-1217). -/
def acceptCacheSweep (cacheFail : Bool) (c : Cache) (post_id : Nat)
    (comment_author : Option User) : Cache :=
  if cacheFail then c else
    let c := cacheDelete c ("post:" ++ toString post_id)
    let c := cacheScanDelete c ("post:" ++ toString post_id ++ ":comments:")
    match comment_author with
    | some a =>
        let c := cacheDelete c ("user:profile:" ++ a.display_name)
        cacheScanDelete c "users:top:"
    | none => c

/-- Shallow embedding of `accept_answer` (posts.py lines 1106-1226). -/
def accept_answer (db : DB) (c : Cache) (post_id comment_id : Nat)
    (current_user : User) (cacheFail : Bool) :
    Except Err (DB × Cache × AcceptResult) :=
  match db.posts.find? (fun p => p.id == post_id && !p.is_deleted) with
  | none => .error (.notFound "Post not found")
  | some post =>
    if post.author_id != current_user.id then
      .error (.forbidden "Only the post author can accept answers")
    else if post.post_type != PostType.question then
      .error (.badRequest "Only questions can have accepted answers")
    else
      match db.comments.find?
          (fun cm => cm.id == comment_id && cm.post_id == post_id && !cm.is_deleted) with
      | none => .error (.notFound "Comment not found")
      | some comment =>
        if comment.is_accepted && post.accepted_answer_id == some comment_id then
          -- Unaccept the answer
          let cs := updateFirst
              (fun (cm : Comment) => cm.id == comment_id && cm.post_id == post_id && !cm.is_deleted)
              (fun cm => { cm with is_accepted := false }) db.comments
          let db := { db with comments := cs }
          let db := updLivePost db post_id (fun p => { p with accepted_answer_id := none })
          let comment_author := db.users.find? (fun u => u.id == comment.author_id)
          let db := updUserIfSome db comment_author
              (fun u => { u with karma_score := u.karma_score - 15 })
          let c := acceptCacheSweep cacheFail c post_id comment_author
          .ok (db, c, ⟨"Answer unaccepted", false⟩)
        else
          -- Unaccept any previously accepted answer, then accept this one
          let db :=
            match post.accepted_answer_id with
            | some old_id =>
              match db.comments.find? (fun (cm : Comment) => cm.id == old_id) with
              | some old_accepted =>
                let cs := updateFirst (fun (cm : Comment) => cm.id == old_id)
                    (fun cm => { cm with is_accepted := false }) db.comments
                let db := { db with comments := cs }
                let old_author := db.users.find? (fun (u : User) => u.id == old_accepted.author_id)
                updUserIfSome db old_author
                  (fun u => { u with karma_score := u.karma_score - 15 })
              | none => db
            | none => db
          let cs := updateFirst
              (fun (cm : Comment) => cm.id == comment_id && cm.post_id == post_id && !cm.is_deleted)
              (fun cm => { cm with is_accepted := true }) db.comments
          let db := { db with comments := cs }
          let db := updLivePost db post_id
              (fun p => { p with accepted_answer_id := some comment_id })
          let comment_author := db.users.find? (fun u => u.id == comment.author_id)
          let db := updUserIfSome db comment_author
              (fun u => { u with karma_score := u.karma_score + 15 })
          let c := acceptCacheSweep cacheFail c post_id comment_author
          .ok (db, c, ⟨"Answer accepted", true⟩)

/-- schemas/posts.py `ContentAnalysis` — the fields create_comment stores. -/
structure ContentAnalysis where
  plain_text : String := ""
  has_code : Bool := false
  has_images : Bool := false
deriving DecidableEq, Repr

/-- schemas/posts.py `CommentCreate`. -/
structure CommentCreate where
  content : String
  parent_id : Option Nat := none
  is_answer : Bool := false
deriving DecidableEq, Repr

/-- Shallow embedding of `create_comment` (posts.py lines 667-797).
`process_post_content` is the external Content Processor collaborator
(utils/content.py), passed as a parameter; the fire-and-forget new-answer
e-mail neither mutates the store nor the response and is omitted. -/
def create_comment (process_post_content : String → String × ContentAnalysis)
    (db : DB) (c : Cache) (post_id : Nat) (comment_data : CommentCreate)
    (current_user : User) (cacheFail : Bool) :
    Except Err (DB × Cache × Comment) :=
  match db.posts.find? (fun p => p.id == post_id && !p.is_deleted) with
  | none => .error (.notFound "Post not found")
  | some post =>
    if post.is_locked then .error (.forbidden "Post is locked for comments")
    else
      let parent_missing : Bool :=
        match comment_data.parent_id with
        | some parent_id =>
          (db.comments.find? (fun (cm : Comment) =>
            cm.id == parent_id && cm.post_id == post_id && !cm.is_deleted)).isNone
        | none => false
      if parent_missing then .error (.notFound "Parent comment not found")
      else
        let pc := process_post_content comment_data.content
        let db_comment : Comment :=
          { id := db.next_comment_id
            content := pc.1
            content_plain := pc.2.plain_text
            post_id := post_id
            author_id := current_user.id
            parent_id := comment_data.parent_id
            is_answer := comment_data.is_answer
            has_code := pc.2.has_code
            has_images := pc.2.has_images }
        let db := updLivePost db post_id (fun p =>
          let p := { p with comment_count := p.comment_count + 1 }
          if comment_data.is_answer then { p with answer_count := p.answer_count + 1 } else p)
        let us := updateFirst (fun (u : User) => u.id == current_user.id)
            (fun u => { u with comment_count := u.comment_count + 1 }) db.users
        let db := { db with users := us }
        let db :=
          match comment_data.parent_id with
          | some parent_id =>
            let cs := updateFirst
                (fun (cm : Comment) => cm.id == parent_id && cm.post_id == post_id && !cm.is_deleted)
                (fun cm => { cm with reply_count := cm.reply_count + 1 }) db.comments
            { db with comments := cs }
          | none => db
        let db := { db with comments := db.comments ++ [db_comment],
                            next_comment_id := db.next_comment_id + 1 }
        let c :=
          if cacheFail then c else
            let c := cacheDelete c ("post:" ++ toString post_id)
            let c := cacheScanDelete c ("post:" ++ toString post_id ++ ":comments:")
            let c := cacheScanDelete c "posts:list:"
            cacheDelete c ("user:profile:" ++ current_user.display_name)
        .ok (db, c, db_comment)

/-- schemas/user.py `UserUpdate`: the optional profile fields. -/
structure UserUpdate where
  display_name : Option String := none
  full_name : Option String := none
  bio : Option String := none
  avatar_url : Option String := none
  banner_url : Option String := none
  website_url : Option String := none
  location : Option String := none
  twitter_handle : Option String := none
  github_username : Option String := none
  linkedin_url : Option String := none
  profile_public : Option Bool := none
  show_email : Option Bool := none
  show_real_name : Option Bool := none
deriving DecidableEq, Repr

/-- The `for field, value in update_data.items(): setattr(current_user, field, value)`
loop of `update_profile`, written field by field: each field present in the
payload overwrites the stored one. -/
def applyUserUpdate (u : User) (d : UserUpdate) : User :=
  let u := match d.display_name with | some v => { u with display_name := v } | none => u
  let u := match d.full_name with | some v => { u with full_name := some v } | none => u
  let u := match d.bio with | some v => { u with bio := some v } | none => u
  let u := match d.avatar_url with | some v => { u with avatar_url := some v } | none => u
  let u := match d.banner_url with | some v => { u with banner_url := some v } | none => u
  let u := match d.website_url with | some v => { u with website_url := some v } | none => u
  let u := match d.location with | some v => { u with location := some v } | none => u
  let u := match d.twitter_handle with | some v => { u with twitter_handle := some v } | none => u
  let u := match d.github_username with | some v => { u with github_username := some v } | none => u
  let u := match d.linkedin_url with | some v => { u with linkedin_url := some v } | none => u
  let u := match d.profile_public with | some v => { u with profile_public := v } | none => u
  let u := match d.show_email with | some v => { u with show_email := v } | none => u
  match d.show_real_name with | some v => { u with show_real_name := v } | none => u

/-- Shallow embedding of `update_profile` (users.py lines 162-235).  Note the
source runs its cache-invalidation block BEFORE the display-name check and the
store write, so the sweep happens even when the update is then rejected. -/
def update_profile (db : DB) (c : Cache) (profile_data : UserUpdate)
    (current_user : User) (cacheFail : Bool) :
    Except Err (DB × Cache × User) :=
  let c :=
    if cacheFail then c else
      let c := cacheDelete c ("user:profile:" ++ current_user.display_name)
      let c := cacheScanDelete c "users:search:"
      let c := cacheScanDelete c "users:top:"
      cacheDelete c "users:stats"
  let name_taken : Bool :=
    match profile_data.display_name with
    | some dn =>
      dn != current_user.display_name &&
        (db.users.find? (fun u => u.display_name == dn && u.id != current_user.id)).isSome
    | none => false
  if name_taken then .error (.badRequest "Display name already taken")
  else
    let upd := fun (u : User) =>
      let u := applyUserUpdate u profile_data
      match profile_data.display_name with
      | some dn => { u with name := some dn }
      | none => u
    let db := { db with users := updateFirst (fun u => u.id == current_user.id) upd db.users }
    .ok (db, c, upd current_user)

/-- schemas/user.py `UserRegistration` (validation of field lengths and the
e-mail format is done by the schema layer and not re-modelled). -/
structure UserRegistration where
  email : String
  username : String
  display_name : String
  password : String
  full_name : Option String := none
  bio : Option String := none
deriving DecidableEq, Repr

/-- Shallow embedding of `register_user` (auth.py lines 43-192).
`hash_password` is the external Auth Issuer collaborator and
`verification_token` the random token drawn by the e-mail service;
`email_configured` is `email_service.is_email_configured()`. -/
def register_user (hash_password : String → String) (email_configured : Bool)
    (verification_token : String) (db : DB) (c : Cache)
    (user_data : UserRegistration) (cacheFail : Bool) :
    Except Err (DB × Cache × User) :=
  match db.users.find? (fun u =>
      u.email == user_data.email || u.username == user_data.username ||
        u.display_name == user_data.display_name) with
  | some existing_user =>
    if existing_user.email == user_data.email then
      .error (.badRequest "Email already registered")
    else if existing_user.username == user_data.username then
      .error (.badRequest "Username already taken")
    else
      .error (.badRequest "Display name already taken")
  | none =>
    let db_user : User :=
      { id := db.next_user_id
        email := user_data.email
        username := user_data.username
        display_name := user_data.display_name
        full_name := user_data.full_name
        bio := user_data.bio
        name := some user_data.display_name
        password_hash := some (hash_password user_data.password)
        is_active := true
        is_verified := false
        profile_public := true
        show_email := false
        show_real_name := false }
    let db := { db with users := db.users ++ [db_user],
                        next_user_id := db.next_user_id + 1 }
    let c :=
      if cacheFail then c else
        let c := cacheDelete c ("auth:username:" ++ db_user.username.toLower)
        let c := cacheDelete c ("auth:email:" ++ db_user.email)
        let c := cacheDelete c ("auth:display_name:" ++ db_user.display_name)
        let c := cacheDelete c "users:stats"
        cacheScanDelete c "users:top:"
    let db :=
      if email_configured then
        { db with email_tokens :=
            db.email_tokens ++ [⟨db_user.id, db_user.email, verification_token⟩] }
      else db
    .ok (db, c, db_user)

/-! ### The §4.1 vote/karma state machine, modelled from the spec

These definitions follow the spec's words, not the source: they are the
reference model that claim C1 compares the handlers against. -/

/-- Modelled from the spec (§4.1): states of the per-(user, target) vote
state machine — `NoVote`, `Upvoted`, `Downvoted`. -/
inductive SpecVoteState
  | noVote
  | upvoted
  | downvoted
deriving DecidableEq, Repr

/-- The state a fresh vote of type `t` lands in. -/
def stateFor : VoteType → SpecVoteState
  | .upvote => .upvoted
  | .downvote => .downvoted

/-- The opposite vote type. -/
def oppositeVote : VoteType → VoteType
  | .upvote => .downvote
  | .downvote => .upvote

/-- Modelled from the spec (§4.1): the observable ledger of one
(user, target) pair — the target's `(upvote_count, downvote_count)`, the
target author's `karma_score`, and the pair's machine state. -/
structure SpecLedger where
  up : Int
  down : Int
  karma : Int
  state : SpecVoteState
deriving DecidableEq, Repr

/-- Modelled from the spec (§4.1): the full forward delta for a vote of
type `t` — count +1 on the matching counter, karma `+kUp` for an upvote and
`-kDown` for a downvote to the target's author. -/
def specDelta (kUp kDown : Int) (t : VoteType) (s : SpecLedger) : SpecLedger :=
  match t with
  | .upvote => { s with up := s.up + 1, karma := s.karma + kUp }
  | .downvote => { s with down := s.down + 1, karma := s.karma - kDown }

/-- Modelled from the spec (§4.1): the reversal of the delta for `t`. -/
def specReverse (kUp kDown : Int) (t : VoteType) (s : SpecLedger) : SpecLedger :=
  match t with
  | .upvote => { s with up := s.up - 1, karma := s.karma - kUp }
  | .downvote => { s with down := s.down - 1, karma := s.karma + kDown }

/-- Modelled from the spec (§4.1): one transition of the vote state machine on
a request of type `t`:
`NoVote → T` creates with the full delta; `T → T` toggles off, reversing the
delta; `Opposite → T` applies the reversal of the opposite delta and the
forward delta of `T` in one step. -/
def specStep (kUp kDown : Int) (s : SpecLedger) (t : VoteType) : SpecLedger :=
  if s.state = stateFor t then
    { specReverse kUp kDown t s with state := .noVote }
  else if s.state = .noVote then
    { specDelta kUp kDown t s with state := stateFor t }
  else
    { specDelta kUp kDown t (specReverse kUp kDown (oppositeVote t) s) with
        state := stateFor t }

/-- Modelled from the spec (§8): replaying a whole sequence of vote requests
through the §4.1 state machine. -/
def specReplay (kUp kDown : Int) (s : SpecLedger) (ts : List VoteType) : SpecLedger :=
  ts.foldl (specStep kUp kDown) s

/-- The machine state encoded by an optional vote row. -/
def stateOfVote : Option VoteType → SpecVoteState
  | none => .noVote
  | some .upvote => .upvoted
  | some .downvote => .downvoted

/-- The observable ledger of a (user, post) pair, read off the store with the
handler's own queries: the live post's counters, its author's karma, and the
user's vote row. -/
def postPairLedger (db : DB) (post_id uid : Nat) : Option SpecLedger :=
  match db.posts.find? (fun p => p.id == post_id && !p.is_deleted) with
  | none => none
  | some p =>
    match db.users.find? (fun u => u.id == p.author_id) with
    | none => none
    | some a =>
      some { up := p.upvote_count, down := p.downvote_count,
             karma := a.karma_score,
             state := stateOfVote ((db.post_votes.find?
               (fun v => v.post_id == post_id && v.user_id == uid)).map (·.vote_type)) }

/-- The observable ledger of a (user, comment) pair. -/
def commentPairLedger (db : DB) (comment_id uid : Nat) : Option SpecLedger :=
  match db.comments.find? (fun cm => cm.id == comment_id && !cm.is_deleted) with
  | none => none
  | some cm =>
    match db.users.find? (fun u => u.id == cm.author_id) with
    | none => none
    | some a =>
      some { up := cm.upvote_count, down := cm.downvote_count,
             karma := a.karma_score,
             state := stateOfVote ((db.comment_votes.find?
               (fun v => v.comment_id == comment_id && v.user_id == uid)).map (·.vote_type)) }

/-- Hypotheses under which a vote request on a post by user `uid` succeeds and
tracks the pair ledger: the live post and its author row exist, and the
(user, post) pair has at most one vote row. -/
abbrev PostVoteSimInv (db : DB) (post_id uid : Nat) : Prop :=
  ((db.posts.find? (fun p => p.id == post_id && !p.is_deleted)).bind
      (fun p => db.users.find? (fun u => u.id == p.author_id))).isSome = true ∧
  db.post_votes.countP (fun v => v.post_id == post_id && v.user_id == uid) ≤ 1

/-- Hypotheses under which a vote request on a comment succeeds and tracks the
pair ledger. -/
abbrev CommentVoteSimInv (db : DB) (comment_id uid : Nat) : Prop :=
  ((db.comments.find? (fun cm => cm.id == comment_id && !cm.is_deleted)).bind
      (fun cm => db.users.find? (fun u => u.id == cm.author_id))).isSome = true ∧
  db.comment_votes.countP (fun v => v.comment_id == comment_id && v.user_id == uid) ≤ 1

/-- The store state left by a handler call: the committed state on success,
the unchanged (rolled-back) state on error. -/
def stepDB (r : Except Err (DB × Cache × VoteOutcome)) (db : DB) : DB :=
  match r with
  | .ok (db', _, _) => db'
  | .error _ => db

/-- Running a finite sequence of vote requests by user `u` on post `post_id`
through the `vote_on_post` endpoint. -/
def runPostVotes (post_id : Nat) (u : User) (db : DB) (ts : List VoteType) : DB :=
  ts.foldl (fun d t => stepDB (vote_on_post d [] post_id u t false) d) db

/-- Running a finite sequence of vote requests by user `u` on comment
`comment_id` through the `vote_on_comment` endpoint. -/
def runCommentVotes (comment_id : Nat) (u : User) (db : DB) (ts : List VoteType) : DB :=
  ts.foldl (fun d t => stepDB (vote_on_comment d [] comment_id u t false) d) db

/-- Sample fixtures used by the concrete witnesses below. -/
def sampleAuthor : User := { id := 1, display_name := "author" }

def sampleVoter : User := { id := 2, display_name := "voter" }

def sampleDB : DB :=
  { users := [sampleAuthor, sampleVoter]
    posts := [{ id := 1, author_id := 1 }]
    comments := [{ id := 1, post_id := 1, author_id := 1 }] }

/-- The spec §3 uniqueness invariant on post votes: no two rows share
(user, post). -/
abbrev PostVotesUnique (db : DB) : Prop :=
  db.post_votes.Pairwise (fun v w => ¬(v.post_id = w.post_id ∧ v.user_id = w.user_id))

/-- The spec §3 uniqueness invariant on comment votes. -/
abbrev CommentVotesUnique (db : DB) : Prop :=
  db.comment_votes.Pairwise (fun v w => ¬(v.comment_id = w.comment_id ∧ v.user_id = w.user_id))

/-- A vote endpoint request, as issued against the running system: either a
`POST /posts/:id/vote` or a `POST /posts/comments/:id/vote`. -/
inductive VoteOp
  | onPost (post_id : Nat) (u : User) (t : VoteType)
  | onComment (comment_id : Nat) (u : User) (t : VoteType)

/-- Apply one vote request to the store (an error leaves the store unchanged,
the transaction having rolled back). -/
def applyVoteOp (db : DB) (op : VoteOp) : DB :=
  match op with
  | .onPost pid u t => stepDB (vote_on_post db [] pid u t false) db
  | .onComment cid u t => stepDB (vote_on_comment db [] cid u t false) db

/-- Apply a whole sequence of vote requests. -/
def runVoteOps (db : DB) (ops : List VoteOp) : DB := ops.foldl applyVoteOp db

/-- Users-list form of `updUserIfSome`, used to state handler shapes. -/
def updUsersIfSome (us : List User) (o : Option User) (f : User → User) : List User :=
  match o with
  | some a => updateFirst (fun x => x.id == a.id) f us
  | none => us

/-- Primary-key uniqueness of the posts table. -/
abbrev PostsUniqueIds (db : DB) : Prop := db.posts.Pairwise (fun a b => a.id ≠ b.id)

/-- Primary-key uniqueness of the comments table. -/
abbrev CommentsUniqueIds (db : DB) : Prop := db.comments.Pairwise (fun a b => a.id ≠ b.id)

/-- The accepted-answer invariant (spec §3), in the strengthened bidirectional
form that accept/unaccept/transfer actually maintain:
1. an accepted comment is pointed at by every post row carrying its post id;
2. a pointed-at comment belongs to the post and is accepted;
3. a set `accepted_answer_id` references some existing comment row. -/
abbrev AcceptInv (db : DB) : Prop :=
  (∀ cm ∈ db.comments, cm.is_accepted = true →
    ∀ p ∈ db.posts, p.id = cm.post_id → p.accepted_answer_id = some cm.id) ∧
  (∀ p ∈ db.posts, ∀ cm ∈ db.comments,
    p.accepted_answer_id = some cm.id → cm.post_id = p.id ∧ cm.is_accepted = true) ∧
  (∀ p ∈ db.posts, p.accepted_answer_id.isSome = true →
    ∃ cm ∈ db.comments, some cm.id = p.accepted_answer_id)

/-- Fixtures for the transfer witness: a question by user 1 whose accepted
answer (comment 1, by user 3) is transferred to comment 2 (by user 4). -/
def tPost : Post := { id := 1, author_id := 1, accepted_answer_id := some 1 }

def tC1 : Comment := { id := 1, post_id := 1, author_id := 3, is_accepted := true }

def tC2 : Comment := { id := 2, post_id := 1, author_id := 4 }

def tUC : User := { id := 3, display_name := "userC" }

def tUD : User := { id := 4, display_name := "userD" }

def transferDB : DB :=
  { users := [sampleAuthor, tUC, tUD]
    posts := [tPost]
    comments := [tC1, tC2] }

/-- Cache fixture for the C6 witness: pre-mutation entries under every key
family the sweep must clear, plus an unrelated survivor. -/
def sampleCache : Cache :=
  [("post:1", "post-json"), ("posts:list:recent:1", "list-json"),
   ("user:profile:author", "profile-json"), ("users:top:karma:10", "top-json"),
   ("unrelated:key", "other")]

/-- Forget the cache component of a handler result, keeping the committed
store state and the response. -/
def dropCache : Except Err (DB × Cache × α) → Except Err (DB × α)
  | .ok (db, _, out) => .ok (db, out)
  | .error e => .error e

/-- A store whose only post and only comment are soft-deleted. -/
def deletedDB : DB :=
  { users := [sampleAuthor, sampleVoter]
    posts := [{ id := 1, author_id := 1, is_deleted := true }]
    comments := [{ id := 1, post_id := 1, author_id := 1, is_deleted := true }] }

/-- A store with one locked, live post. -/
def lockedDB : DB :=
  { users := [sampleAuthor, sampleVoter]
    posts := [{ id := 1, author_id := 1, is_locked := true }]
    comments := [] }

/-- A store whose only post is a discussion (not a question). -/
def discussionDB : DB :=
  { users := [sampleAuthor]
    posts := [{ id := 1, author_id := 1, post_type := .discussion }]
    comments := [] }

/-- schemas/posts.py `VoteResponse`, the declared `response_model` of both
vote routes: the pydantic model requires `id`, `vote_type` and `created_at`.
`id` and `created_at` are database-generated and carry no information the
store model tracks, so the embedding keeps the one required field the
handlers determine; what matters to the serialization step below is only
whether the returned value can supply all the required fields at all. -/
structure VoteResponse where
  vote_type : VoteType
deriving DecidableEq, Repr

/-- What the client observes from a vote route whose body returned
successfully: either the 201 body (the serialized `VoteResponse`), or the
500 that FastAPI answers when the returned value fails validation against
the declared response model. -/
inductive EndpointVote
  | body (r : VoteResponse)
  | responseValidationError
deriving DecidableEq, Repr

/-- FastAPI's serialization of the route body's return value against
`response_model=VoteResponse`, which runs outside the body's try/except
(after `db.commit()`): a vote row has `id`, `vote_type` and `created_at`
attributes, so `VoteResponse.model_validate(vote)` passes, while the
toggle-off dict `{"message": ..., "action": ...}` supplies none of the three
required fields, so validation fails and the framework answers 500. -/
def serializeVoteOutcome : VoteOutcome → EndpointVote
  | .removed _ _ => .responseValidationError
  | .voted t => .body ⟨t⟩

/-- The `POST /posts/{post_id}/vote` route as observed by the client: the
handler body followed by response-model serialization. A serialization
failure happens after the commit, so the mutated store and swept cache are
kept in that case. -/
def vote_on_post_endpoint (db : DB) (c : Cache) (post_id : Nat)
    (current_user : User) (vote_type : VoteType) (cacheFail : Bool) :
    Except Err (DB × Cache × EndpointVote) :=
  match vote_on_post db c post_id current_user vote_type cacheFail with
  | .error e => .error e
  | .ok (db', c', out) => .ok (db', c', serializeVoteOutcome out)

/-- The `POST /posts/comments/{comment_id}/vote` route as observed by the
client, mirroring `vote_on_post_endpoint`. -/
def vote_on_comment_endpoint (db : DB) (c : Cache) (comment_id : Nat)
    (current_user : User) (vote_type : VoteType) (cacheFail : Bool) :
    Except Err (DB × Cache × EndpointVote) :=
  match vote_on_comment db c comment_id current_user vote_type cacheFail with
  | .error e => .error e
  | .ok (db', c', out) => .ok (db', c', serializeVoteOutcome out)

/-- A store in which the voter has already upvoted both the post and the
comment, so a same-type resubmission takes the toggle-off branch. -/
def votedDB : DB :=
  { sampleDB with post_votes := [⟨1, 2, .upvote⟩], comment_votes := [⟨1, 2, .upvote⟩] }

/-! ### Generic lemmas about `updateFirst`, `find?`, `eraseP` and the cache -/

theorem find?_updateFirst_same (p : α → Bool) (f : α → α)
    (h : ∀ x, p (f x) = p x) (l : List α) :
    (updateFirst p f l).find? p = (l.find? p).map f := by
  induction l with
  | nil => rfl
  | cons x xs ih =>
    cases hx : p x with
    | true => simp [updateFirst, hx, List.find?_cons, h x]
    | false => simp [updateFirst, hx, List.find?_cons, ih]

theorem find?_updateFirst_other (q r : α → Bool) (f : α → α)
    (hpres : ∀ x, r (f x) = r x) (hdisj : ∀ x, r x = true → q x = false)
    (l : List α) : (updateFirst q f l).find? r = l.find? r := by
  induction l with
  | nil => rfl
  | cons x xs ih =>
    cases hq : q x with
    | true =>
      have hr : r x = false := by
        cases hrx : r x with
        | true => rw [hdisj x hrx] at hq; exact absurd hq Bool.false_ne_true
        | false => rfl
      simp [updateFirst, hq, List.find?_cons, hpres x, hr]
    | false =>
      cases hr : r x with
      | true => simp [updateFirst, hq, List.find?_cons, hr]
      | false => simp [updateFirst, hq, List.find?_cons, hr, ih]

theorem map_updateFirst (q : α → Bool) (f : α → α) (g : α → β)
    (h : ∀ x, g (f x) = g x) (l : List α) :
    (updateFirst q f l).map g = l.map g := by
  induction l with
  | nil => rfl
  | cons x xs ih =>
    cases hq : q x with
    | true => simp [updateFirst, hq, h x]
    | false => simp [updateFirst, hq, ih]

theorem countP_updateFirst (q r : α → Bool) (f : α → α)
    (h : ∀ x, r (f x) = r x) (l : List α) :
    (updateFirst q f l).countP r = l.countP r := by
  induction l with
  | nil => rfl
  | cons x xs ih =>
    cases hq : q x with
    | true => simp [updateFirst, hq, List.countP_cons, h x]
    | false => simp [updateFirst, hq, List.countP_cons, ih]

theorem mem_updateFirst (q : α → Bool) (f : α → α) (l : List α) (y : α)
    (hy : y ∈ updateFirst q f l) : y ∈ l ∨ ∃ x ∈ l, y = f x := by
  induction l with
  | nil => simp [updateFirst] at hy
  | cons x xs ih =>
    cases hq : q x with
    | true =>
      rw [updateFirst, if_pos hq] at hy
      rcases List.mem_cons.mp hy with h | h
      · exact Or.inr ⟨x, List.mem_cons_self x xs, h⟩
      · exact Or.inl (List.mem_cons_of_mem x h)
    | false =>
      rw [updateFirst, if_neg (by simp [hq])] at hy
      rcases List.mem_cons.mp hy with h | h
      · exact Or.inl (h ▸ List.mem_cons_self x xs)
      · rcases ih h with h' | ⟨z, hz, hzf⟩
        · exact Or.inl (List.mem_cons_of_mem x h')
        · exact Or.inr ⟨z, List.mem_cons_of_mem x hz, hzf⟩

theorem pairwise_updateFirst {R : α → α → Prop} (q : α → Bool) (f : α → α)
    (hL : ∀ a b, R a b → R (f a) b) (hR : ∀ a b, R a b → R a (f b))
    (l : List α) (h : l.Pairwise R) : (updateFirst q f l).Pairwise R := by
  induction l with
  | nil => exact h
  | cons x xs ih =>
    rcases List.pairwise_cons.mp h with ⟨hx, hxs⟩
    cases hq : q x with
    | true =>
      rw [updateFirst, if_pos hq]
      exact List.pairwise_cons.mpr ⟨fun y hy => hL x y (hx y hy), hxs⟩
    | false =>
      rw [updateFirst, if_neg (by simp [hq])]
      refine List.pairwise_cons.mpr ⟨?_, ih hxs⟩
      intro y hy
      rcases mem_updateFirst q f xs y hy with h' | ⟨z, hz, hzf⟩
      · exact hx y h'
      · exact hzf ▸ hR x z (hx z hz)

theorem countP_eq_zero_of_find?_eq_none (p : α → Bool) (l : List α)
    (h : l.find? p = none) : l.countP p = 0 :=
  List.countP_eq_zero.mpr (List.find?_eq_none.mp h)

theorem find?_eq_none_of_countP_eq_zero (p : α → Bool) (l : List α)
    (h : l.countP p = 0) : l.find? p = none :=
  List.find?_eq_none.mpr (List.countP_eq_zero.mp h)

theorem find?_eraseP_self (p : α → Bool) (l : List α) (h : l.countP p ≤ 1) :
    (l.eraseP p).find? p = none := by
  induction l with
  | nil => rfl
  | cons x xs ih =>
    cases hx : p x with
    | true =>
      have h0 : xs.countP p = 0 := by
        have hc := List.countP_cons p x xs
        rw [if_pos hx] at hc
        omega
      rw [List.eraseP_cons, hx]
      exact find?_eq_none_of_countP_eq_zero p xs h0
    | false =>
      have hle : xs.countP p ≤ 1 := by
        have hc := List.countP_cons p x xs
        rw [if_neg (by simp [hx])] at hc
        omega
      rw [List.eraseP_cons, hx]
      simp only [cond_false, List.find?_cons, hx]
      exact ih hle

theorem updateFirst_eq_map (q : α → Bool) (f : α → α) (l : List α)
    (h : l.countP q ≤ 1) :
    updateFirst q f l = l.map (fun x => if q x then f x else x) := by
  induction l with
  | nil => rfl
  | cons x xs ih =>
    cases hq : q x with
    | true =>
      have h0 : xs.countP q = 0 := by
        have hc := List.countP_cons q x xs
        rw [if_pos hq] at hc
        omega
      have hall := List.countP_eq_zero.mp h0
      have hmap : xs.map (fun x => if q x then f x else x) = xs := by
        have : ∀ a ∈ xs, (if q a then f a else a) = a := by
          intro a ha
          rw [if_neg (hall a ha)]
        calc xs.map (fun x => if q x then f x else x) = xs.map id :=
              List.map_congr_left this
          _ = xs := List.map_id xs
      rw [updateFirst, if_pos hq, List.map_cons, if_pos hq, hmap]
    | false =>
      have hle : xs.countP q ≤ 1 := by
        have hc := List.countP_cons q x xs
        rw [if_neg (by simp [hq])] at hc
        omega
      rw [updateFirst, if_neg (by simp [hq]), List.map_cons, if_neg (by simp [hq]), ih hle]

theorem countP_le_one_of_pairwise_key {κ : Type v} {k : α → κ} {l : List α}
    (hu : l.Pairwise (fun a b => k a ≠ k b)) (q : α → Bool) (K : κ)
    (hq : ∀ x, q x = true → k x = K) : l.countP q ≤ 1 := by
  induction l with
  | nil => simp
  | cons x xs ih =>
    rcases List.pairwise_cons.mp hu with ⟨hx, hxs⟩
    cases hqx : q x with
    | true =>
      have h0 : xs.countP q = 0 := by
        apply List.countP_eq_zero.mpr
        intro a ha hqa
        exact hx a ha (by rw [hq x hqx, hq a hqa])
      rw [List.countP_cons, if_pos hqx, h0]
    | false =>
      rw [List.countP_cons, if_neg (by simp [hqx])]
      have := ih hxs
      omega

theorem find?_filter_excl (p q : α → Bool) (l : List α)
    (h : ∀ x, p x = true → q x = false) : (l.filter q).find? p = none := by
  apply List.find?_eq_none.mpr
  intro x hx hpx
  have hq := (List.mem_filter.mp hx).2
  rw [h x hpx] at hq
  exact Bool.false_ne_true hq

theorem find?_filter_of_none (p q : α → Bool) (l : List α)
    (h : l.find? p = none) : (l.filter q).find? p = none :=
  List.find?_eq_none.mpr fun x hx => List.find?_eq_none.mp h x (List.mem_filter.mp hx).1

theorem cacheGet_delete_self (c : Cache) (k : String) :
    cacheGet (cacheDelete c k) k = none := by
  unfold cacheGet cacheDelete
  rw [find?_filter_excl]
  · rfl
  · intro kv h
    simp only [beq_iff_eq] at h
    simp [bne, h]

theorem cacheGet_scanDelete_pre (c : Cache) (pre k : String)
    (h : pre.isPrefixOf k = true) : cacheGet (cacheScanDelete c pre) k = none := by
  unfold cacheGet cacheScanDelete
  rw [find?_filter_excl]
  · rfl
  · intro kv hkv
    simp only [beq_iff_eq] at hkv
    simp [hkv, h]

theorem cacheGet_none_delete (c : Cache) (k k' : String)
    (h : cacheGet c k = none) : cacheGet (cacheDelete c k') k = none := by
  unfold cacheGet cacheDelete at *
  rw [find?_filter_of_none]
  · rfl
  · cases hf : c.find? (fun kv => kv.1 == k) with
    | none => rfl
    | some kv => rw [hf] at h; simp at h

theorem cacheGet_none_scanDelete (c : Cache) (pre k : String)
    (h : cacheGet c k = none) : cacheGet (cacheScanDelete c pre) k = none := by
  unfold cacheGet cacheScanDelete at *
  rw [find?_filter_of_none]
  · rfl
  · cases hf : c.find? (fun kv => kv.1 == k) with
    | none => rfl
    | some kv => rw [hf] at h; simp at h

theorem vote_on_post_step (db : DB) (c : Cache) (post_id : Nat) (u : User)
    (t : VoteType) (cf : Bool) (hinv : PostVoteSimInv db post_id u.id) :
    ∃ db' c' out, vote_on_post db c post_id u t cf = .ok (db', c', out) ∧
      PostVoteSimInv db' post_id u.id ∧
      postPairLedger db' post_id u.id =
        (postPairLedger db post_id u.id).map (fun s => specStep 10 2 s t) := by
  obtain ⟨hpa, hcnt⟩ := hinv
  cases hp : db.posts.find? (fun p => p.id == post_id && !p.is_deleted) with
  | none => rw [hp] at hpa; simp at hpa
  | some p =>
  rw [hp] at hpa
  cases ha : db.users.find? (fun x => x.id == p.author_id) with
  | none => rw [Option.some_bind, ha] at hpa; simp at hpa
  | some a =>
  have haid : a.id = p.author_id := by simpa using List.find?_some ha
  have ha' : db.users.find? (fun x => x.id == a.id) = some a := by rw [haid]; exact ha
  cases hv : db.post_votes.find? (fun v => v.post_id == post_id && v.user_id == u.id) with
  | none =>
    have h0 := countP_eq_zero_of_find?_eq_none _ _ hv
    cases t with
    | upvote =>
      simp only [vote_on_post, hp, ha, hv]
      refine ⟨_, _, _, rfl, ?_, ?_⟩
      · simp [PostVoteSimInv, updUserIfSome, updLivePost, haid,
          find?_updateFirst_same, hp, ha, List.countP_append, h0, List.countP_cons]
      · simp [postPairLedger, updUserIfSome, updLivePost, haid,
          find?_updateFirst_same, hp, ha, hv, List.find?_append,
          specStep, specDelta, specReverse, stateOfVote, stateFor, oppositeVote]
    | downvote =>
      simp only [vote_on_post, hp, ha, hv]
      refine ⟨_, _, _, rfl, ?_, ?_⟩
      · simp [PostVoteSimInv, updUserIfSome, updLivePost, haid,
          find?_updateFirst_same, hp, ha, List.countP_append, h0, List.countP_cons]
      · simp [postPairLedger, updUserIfSome, updLivePost, haid,
          find?_updateFirst_same, hp, ha, hv, List.find?_append,
          specStep, specDelta, specReverse, stateOfVote, stateFor, oppositeVote]
  | some ev =>
    have herase := find?_eraseP_self _ _ hcnt
    have herase0 := countP_eq_zero_of_find?_eq_none _ _ herase
    cases hevt : ev.vote_type with
    | upvote =>
      cases t with
      | upvote =>
        simp only [vote_on_post, hp, ha, hv, hevt]
        refine ⟨_, _, _, rfl, ?_, ?_⟩
        · simp [PostVoteSimInv, updUserIfSome, updLivePost, haid,
            find?_updateFirst_same, hp, ha, herase0]
        · simp [postPairLedger, updUserIfSome, updLivePost, haid,
            find?_updateFirst_same, hp, ha, hv, hevt, herase,
            specStep, specDelta, specReverse, stateOfVote, stateFor, oppositeVote]
      | downvote =>
        simp only [vote_on_post, hp, ha, hv, hevt]
        refine ⟨_, _, _, rfl, ?_, ?_⟩
        · simp [PostVoteSimInv, updUserIfSome, updLivePost, haid,
            find?_updateFirst_same, hp, ha, countP_updateFirst, hcnt]
        · simp [postPairLedger, updUserIfSome, updLivePost, haid,
            find?_updateFirst_same, hp, ha, hv, hevt,
            specStep, specDelta, specReverse, stateOfVote, stateFor, oppositeVote]
    | downvote =>
      cases t with
      | upvote =>
        simp only [vote_on_post, hp, ha, hv, hevt]
        refine ⟨_, _, _, rfl, ?_, ?_⟩
        · simp [PostVoteSimInv, updUserIfSome, updLivePost, haid,
            find?_updateFirst_same, hp, ha, countP_updateFirst, hcnt]
        · simp [postPairLedger, updUserIfSome, updLivePost, haid,
            find?_updateFirst_same, hp, ha, hv, hevt,
            specStep, specDelta, specReverse, stateOfVote, stateFor, oppositeVote]
      | downvote =>
        simp only [vote_on_post, hp, ha, hv, hevt]
        refine ⟨_, _, _, rfl, ?_, ?_⟩
        · simp [PostVoteSimInv, updUserIfSome, updLivePost, haid,
            find?_updateFirst_same, hp, ha, herase0]
        · simp [postPairLedger, updUserIfSome, updLivePost, haid,
            find?_updateFirst_same, hp, ha, hv, hevt, herase,
            specStep, specDelta, specReverse, stateOfVote, stateFor, oppositeVote]

theorem vote_on_comment_step (db : DB) (c : Cache) (comment_id : Nat) (u : User)
    (t : VoteType) (cf : Bool) (hinv : CommentVoteSimInv db comment_id u.id) :
    ∃ db' c' out, vote_on_comment db c comment_id u t cf = .ok (db', c', out) ∧
      CommentVoteSimInv db' comment_id u.id ∧
      commentPairLedger db' comment_id u.id =
        (commentPairLedger db comment_id u.id).map (fun s => specStep 5 1 s t) := by
  obtain ⟨hpa, hcnt⟩ := hinv
  cases hp : db.comments.find? (fun cm => cm.id == comment_id && !cm.is_deleted) with
  | none => rw [hp] at hpa; simp at hpa
  | some p =>
  rw [hp] at hpa
  cases ha : db.users.find? (fun x => x.id == p.author_id) with
  | none => rw [Option.some_bind, ha] at hpa; simp at hpa
  | some a =>
  have haid : a.id = p.author_id := by simpa using List.find?_some ha
  cases hv : db.comment_votes.find? (fun v => v.comment_id == comment_id && v.user_id == u.id) with
  | none =>
    have h0 := countP_eq_zero_of_find?_eq_none _ _ hv
    cases t with
    | upvote =>
      simp only [vote_on_comment, hp, ha, hv]
      refine ⟨_, _, _, rfl, ?_, ?_⟩
      · simp [CommentVoteSimInv, updUserIfSome, updLiveComment, haid,
          find?_updateFirst_same, hp, ha, List.countP_append, h0, List.countP_cons]
      · simp [commentPairLedger, updUserIfSome, updLiveComment, haid,
          find?_updateFirst_same, hp, ha, hv, List.find?_append,
          specStep, specDelta, specReverse, stateOfVote, stateFor, oppositeVote]
    | downvote =>
      simp only [vote_on_comment, hp, ha, hv]
      refine ⟨_, _, _, rfl, ?_, ?_⟩
      · simp [CommentVoteSimInv, updUserIfSome, updLiveComment, haid,
          find?_updateFirst_same, hp, ha, List.countP_append, h0, List.countP_cons]
      · simp [commentPairLedger, updUserIfSome, updLiveComment, haid,
          find?_updateFirst_same, hp, ha, hv, List.find?_append,
          specStep, specDelta, specReverse, stateOfVote, stateFor, oppositeVote]
  | some ev =>
    have herase := find?_eraseP_self _ _ hcnt
    have herase0 := countP_eq_zero_of_find?_eq_none _ _ herase
    cases hevt : ev.vote_type with
    | upvote =>
      cases t with
      | upvote =>
        simp only [vote_on_comment, hp, ha, hv, hevt]
        refine ⟨_, _, _, rfl, ?_, ?_⟩
        · simp [CommentVoteSimInv, updUserIfSome, updLiveComment, haid,
            find?_updateFirst_same, hp, ha, herase0]
        · simp [commentPairLedger, updUserIfSome, updLiveComment, haid,
            find?_updateFirst_same, hp, ha, hv, hevt, herase,
            specStep, specDelta, specReverse, stateOfVote, stateFor, oppositeVote]
      | downvote =>
        simp only [vote_on_comment, hp, ha, hv, hevt]
        refine ⟨_, _, _, rfl, ?_, ?_⟩
        · simp [CommentVoteSimInv, updUserIfSome, updLiveComment, haid,
            find?_updateFirst_same, hp, ha, countP_updateFirst, hcnt]
        · simp [commentPairLedger, updUserIfSome, updLiveComment, haid,
            find?_updateFirst_same, hp, ha, hv, hevt,
            specStep, specDelta, specReverse, stateOfVote, stateFor, oppositeVote]
    | downvote =>
      cases t with
      | upvote =>
        simp only [vote_on_comment, hp, ha, hv, hevt]
        refine ⟨_, _, _, rfl, ?_, ?_⟩
        · simp [CommentVoteSimInv, updUserIfSome, updLiveComment, haid,
            find?_updateFirst_same, hp, ha, countP_updateFirst, hcnt]
        · simp [commentPairLedger, updUserIfSome, updLiveComment, haid,
            find?_updateFirst_same, hp, ha, hv, hevt,
            specStep, specDelta, specReverse, stateOfVote, stateFor, oppositeVote]
      | downvote =>
        simp only [vote_on_comment, hp, ha, hv, hevt]
        refine ⟨_, _, _, rfl, ?_, ?_⟩
        · simp [CommentVoteSimInv, updUserIfSome, updLiveComment, haid,
            find?_updateFirst_same, hp, ha, herase0]
        · simp [commentPairLedger, updUserIfSome, updLiveComment, haid,
            find?_updateFirst_same, hp, ha, hv, hevt, herase,
            specStep, specDelta, specReverse, stateOfVote, stateFor, oppositeVote]

theorem runPostVotes_ledger (post_id : Nat) (u : User) (ts : List VoteType)
    (db : DB) (hinv : PostVoteSimInv db post_id u.id) :
    PostVoteSimInv (runPostVotes post_id u db ts) post_id u.id ∧
    postPairLedger (runPostVotes post_id u db ts) post_id u.id =
      (postPairLedger db post_id u.id).map (fun s => specReplay 10 2 s ts) := by
  induction ts generalizing db with
  | nil =>
    refine ⟨hinv, ?_⟩
    simp [runPostVotes, specReplay]
  | cons t ts ih =>
    obtain ⟨db', c', out, hrun, hinv', hled⟩ := vote_on_post_step db [] post_id u t false hinv
    have hstep : runPostVotes post_id u db (t :: ts) = runPostVotes post_id u db' ts := by
      simp [runPostVotes, stepDB, hrun]
    rw [hstep]
    obtain ⟨hinv2, hled2⟩ := ih db' hinv'
    refine ⟨hinv2, ?_⟩
    rw [hled2, hled]
    cases postPairLedger db post_id u.id with
    | none => rfl
    | some s => simp [specReplay]

theorem runCommentVotes_ledger (comment_id : Nat) (u : User) (ts : List VoteType)
    (db : DB) (hinv : CommentVoteSimInv db comment_id u.id) :
    CommentVoteSimInv (runCommentVotes comment_id u db ts) comment_id u.id ∧
    commentPairLedger (runCommentVotes comment_id u db ts) comment_id u.id =
      (commentPairLedger db comment_id u.id).map (fun s => specReplay 5 1 s ts) := by
  induction ts generalizing db with
  | nil =>
    refine ⟨hinv, ?_⟩
    simp [runCommentVotes, specReplay]
  | cons t ts ih =>
    obtain ⟨db', c', out, hrun, hinv', hled⟩ := vote_on_comment_step db [] comment_id u t false hinv
    have hstep : runCommentVotes comment_id u db (t :: ts) = runCommentVotes comment_id u db' ts := by
      simp [runCommentVotes, stepDB, hrun]
    rw [hstep]
    obtain ⟨hinv2, hled2⟩ := ih db' hinv'
    refine ⟨hinv2, ?_⟩
    rw [hled2, hled]
    cases commentPairLedger db comment_id u.id with
    | none => rfl
    | some s => simp [specReplay]

/-- C1: for every user, every target (post or comment) and every finite
sequence of vote requests by that user on that target, the final
(upvote_count, downvote_count, author karma, vote row) after running
`vote_on_post` / `vote_on_comment` equals the result of replaying the §4.1
NoVote/Upvoted/Downvoted state machine, with karma weights +10/−2 for posts
and +5/−1 for comments. -/
theorem vote_replay_matches_spec_state_machine :
    (∀ (db : DB) (post_id : Nat) (u : User) (ts : List VoteType),
      PostVoteSimInv db post_id u.id →
      postPairLedger (runPostVotes post_id u db ts) post_id u.id =
        (postPairLedger db post_id u.id).map (fun s => specReplay 10 2 s ts)) ∧
    (∀ (db : DB) (comment_id : Nat) (u : User) (ts : List VoteType),
      CommentVoteSimInv db comment_id u.id →
      commentPairLedger (runCommentVotes comment_id u db ts) comment_id u.id =
        (commentPairLedger db comment_id u.id).map (fun s => specReplay 5 1 s ts)) :=
  ⟨fun db pid u ts h => (runPostVotes_ledger pid u ts db h).2,
   fun db cid u ts h => (runCommentVotes_ledger cid u ts db h).2⟩

/-- Witness for C1 at a concrete store and the spec §8 round-trip sequence. -/
theorem vote_replay_matches_spec_state_machine_witness :
    (PostVoteSimInv sampleDB 1 sampleVoter.id ∧
      postPairLedger (runPostVotes 1 sampleVoter sampleDB [.upvote, .downvote, .upvote]) 1 sampleVoter.id =
        (postPairLedger sampleDB 1 sampleVoter.id).map
          (fun s => specReplay 10 2 s [.upvote, .downvote, .upvote])) ∧
    (CommentVoteSimInv sampleDB 1 sampleVoter.id ∧
      commentPairLedger (runCommentVotes 1 sampleVoter sampleDB [.upvote, .upvote]) 1 sampleVoter.id =
        (commentPairLedger sampleDB 1 sampleVoter.id).map
          (fun s => specReplay 5 1 s [.upvote, .upvote])) :=
  ⟨⟨by decide, vote_replay_matches_spec_state_machine.1 sampleDB 1 sampleVoter _ (by decide)⟩,
   ⟨by decide, vote_replay_matches_spec_state_machine.2 sampleDB 1 sampleVoter _ (by decide)⟩⟩

theorem specStep_toggle (kUp kDown : Int) (s : SpecLedger) (t : VoteType)
    (h : s.state = .noVote) : specStep kUp kDown (specStep kUp kDown s t) t = s := by
  obtain ⟨up, down, karma, st⟩ := s
  simp only at h
  subst h
  cases t <;> simp [specStep, specDelta, specReverse, stateFor]

theorem stateOfVote_eq_noVote {o : Option VoteType}
    (h : stateOfVote o = .noVote) : o = none := by
  cases o with
  | none => rfl
  | some v => cases v <;> simp [stateOfVote] at h

/-- C4: submitting the same vote type twice in a row starting from NoVote
toggles the vote off — both calls succeed, the vote row is deleted, and the
target's counters and the author's karma return exactly to the pre-vote
baseline. -/
theorem vote_toggle_off_restores_baseline :
    (∀ (db : DB) (c : Cache) (post_id : Nat) (u : User) (t : VoteType) (cf : Bool),
      PostVoteSimInv db post_id u.id →
      db.post_votes.find? (fun v => v.post_id == post_id && v.user_id == u.id) = none →
      ∃ db₁ c₁ o₁ db₂ c₂ o₂,
        vote_on_post db c post_id u t cf = .ok (db₁, c₁, o₁) ∧
        vote_on_post db₁ c₁ post_id u t cf = .ok (db₂, c₂, o₂) ∧
        postPairLedger db₂ post_id u.id = postPairLedger db post_id u.id ∧
        db₂.post_votes.find? (fun v => v.post_id == post_id && v.user_id == u.id) = none) ∧
    (∀ (db : DB) (c : Cache) (comment_id : Nat) (u : User) (t : VoteType) (cf : Bool),
      CommentVoteSimInv db comment_id u.id →
      db.comment_votes.find? (fun v => v.comment_id == comment_id && v.user_id == u.id) = none →
      ∃ db₁ c₁ o₁ db₂ c₂ o₂,
        vote_on_comment db c comment_id u t cf = .ok (db₁, c₁, o₁) ∧
        vote_on_comment db₁ c₁ comment_id u t cf = .ok (db₂, c₂, o₂) ∧
        commentPairLedger db₂ comment_id u.id = commentPairLedger db comment_id u.id ∧
        db₂.comment_votes.find? (fun v => v.comment_id == comment_id && v.user_id == u.id) = none) := by
  constructor
  · intro db c post_id u t cf hinv hv
    obtain ⟨db₁, c₁, o₁, hrun₁, hinv₁, hled₁⟩ := vote_on_post_step db c post_id u t cf hinv
    obtain ⟨db₂, c₂, o₂, hrun₂, hinv₂, hled₂⟩ := vote_on_post_step db₁ c₁ post_id u t cf hinv₁
    obtain ⟨hpa, hcnt⟩ := hinv
    cases hp : db.posts.find? (fun p => p.id == post_id && !p.is_deleted) with
    | none => rw [hp] at hpa; simp at hpa
    | some p =>
    rw [hp] at hpa
    cases ha : db.users.find? (fun x => x.id == p.author_id) with
    | none => rw [Option.some_bind, ha] at hpa; simp at hpa
    | some a =>
    have hL : postPairLedger db post_id u.id =
        some ⟨p.upvote_count, p.downvote_count, a.karma_score, SpecVoteState.noVote⟩ := by
      simp [postPairLedger, hp, ha, hv, stateOfVote]
    have hfinal : postPairLedger db₂ post_id u.id = postPairLedger db post_id u.id := by
      rw [hled₂, hled₁, hL]
      simp only [Option.map_some']
      exact congrArg some (specStep_toggle 10 2 _ t rfl)
    obtain ⟨hpa₂, hcnt₂⟩ := hinv₂
    cases hp₂ : db₂.posts.find? (fun p => p.id == post_id && !p.is_deleted) with
    | none => rw [hp₂] at hpa₂; simp at hpa₂
    | some p₂ =>
    rw [hp₂] at hpa₂
    cases ha₂ : db₂.users.find? (fun x => x.id == p₂.author_id) with
    | none => rw [Option.some_bind, ha₂] at hpa₂; simp at hpa₂
    | some a₂ =>
    have hstate : postPairLedger db₂ post_id u.id =
        some ⟨p₂.upvote_count, p₂.downvote_count, a₂.karma_score,
          stateOfVote ((db₂.post_votes.find?
            (fun v => v.post_id == post_id && v.user_id == u.id)).map (·.vote_type))⟩ := by
      simp [postPairLedger, hp₂, ha₂]
    have hmk := hstate.symm.trans (hfinal.trans hL)
    simp only [Option.some.injEq, SpecLedger.mk.injEq] at hmk
    have hnone := stateOfVote_eq_noVote hmk.2.2.2
    rw [Option.map_eq_none'] at hnone
    exact ⟨db₁, c₁, o₁, db₂, c₂, o₂, hrun₁, hrun₂, hfinal, hnone⟩
  · intro db c comment_id u t cf hinv hv
    obtain ⟨db₁, c₁, o₁, hrun₁, hinv₁, hled₁⟩ := vote_on_comment_step db c comment_id u t cf hinv
    obtain ⟨db₂, c₂, o₂, hrun₂, hinv₂, hled₂⟩ := vote_on_comment_step db₁ c₁ comment_id u t cf hinv₁
    obtain ⟨hpa, hcnt⟩ := hinv
    cases hp : db.comments.find? (fun cm => cm.id == comment_id && !cm.is_deleted) with
    | none => rw [hp] at hpa; simp at hpa
    | some p =>
    rw [hp] at hpa
    cases ha : db.users.find? (fun x => x.id == p.author_id) with
    | none => rw [Option.some_bind, ha] at hpa; simp at hpa
    | some a =>
    have hL : commentPairLedger db comment_id u.id =
        some ⟨p.upvote_count, p.downvote_count, a.karma_score, SpecVoteState.noVote⟩ := by
      simp [commentPairLedger, hp, ha, hv, stateOfVote]
    have hfinal : commentPairLedger db₂ comment_id u.id = commentPairLedger db comment_id u.id := by
      rw [hled₂, hled₁, hL]
      simp only [Option.map_some']
      exact congrArg some (specStep_toggle 5 1 _ t rfl)
    obtain ⟨hpa₂, hcnt₂⟩ := hinv₂
    cases hp₂ : db₂.comments.find? (fun cm => cm.id == comment_id && !cm.is_deleted) with
    | none => rw [hp₂] at hpa₂; simp at hpa₂
    | some p₂ =>
    rw [hp₂] at hpa₂
    cases ha₂ : db₂.users.find? (fun x => x.id == p₂.author_id) with
    | none => rw [Option.some_bind, ha₂] at hpa₂; simp at hpa₂
    | some a₂ =>
    have hstate : commentPairLedger db₂ comment_id u.id =
        some ⟨p₂.upvote_count, p₂.downvote_count, a₂.karma_score,
          stateOfVote ((db₂.comment_votes.find?
            (fun v => v.comment_id == comment_id && v.user_id == u.id)).map (·.vote_type))⟩ := by
      simp [commentPairLedger, hp₂, ha₂]
    have hmk := hstate.symm.trans (hfinal.trans hL)
    simp only [Option.some.injEq, SpecLedger.mk.injEq] at hmk
    have hnone := stateOfVote_eq_noVote hmk.2.2.2
    rw [Option.map_eq_none'] at hnone
    exact ⟨db₁, c₁, o₁, db₂, c₂, o₂, hrun₁, hrun₂, hfinal, hnone⟩

/-- Witness for C4 at a concrete store. -/
theorem vote_toggle_off_restores_baseline_witness :
    (PostVoteSimInv sampleDB 1 sampleVoter.id ∧
      sampleDB.post_votes.find? (fun v => v.post_id == 1 && v.user_id == sampleVoter.id) = none ∧
      ∃ db₁ c₁ o₁ db₂ c₂ o₂,
        vote_on_post sampleDB [] 1 sampleVoter .downvote false = .ok (db₁, c₁, o₁) ∧
        vote_on_post db₁ c₁ 1 sampleVoter .downvote false = .ok (db₂, c₂, o₂) ∧
        postPairLedger db₂ 1 sampleVoter.id = postPairLedger sampleDB 1 sampleVoter.id ∧
        db₂.post_votes.find? (fun v => v.post_id == 1 && v.user_id == sampleVoter.id) = none) ∧
    (CommentVoteSimInv sampleDB 1 sampleVoter.id ∧
      ∃ db₁ c₁ o₁ db₂ c₂ o₂,
        vote_on_comment sampleDB [] 1 sampleVoter .upvote false = .ok (db₁, c₁, o₁) ∧
        vote_on_comment db₁ c₁ 1 sampleVoter .upvote false = .ok (db₂, c₂, o₂) ∧
        commentPairLedger db₂ 1 sampleVoter.id = commentPairLedger sampleDB 1 sampleVoter.id ∧
        db₂.comment_votes.find? (fun v => v.comment_id == 1 && v.user_id == sampleVoter.id) = none) :=
  ⟨⟨by decide, by decide,
    vote_toggle_off_restores_baseline.1 sampleDB [] 1 sampleVoter .downvote false (by decide) (by decide)⟩,
   ⟨by decide,
    vote_toggle_off_restores_baseline.2 sampleDB [] 1 sampleVoter .upvote false (by decide) (by decide)⟩⟩

@[simp] theorem updLivePost_users (db : DB) (pid : Nat) (f : Post → Post) :
    (updLivePost db pid f).users = db.users := rfl

@[simp] theorem updLivePost_comments (db : DB) (pid : Nat) (f : Post → Post) :
    (updLivePost db pid f).comments = db.comments := rfl

@[simp] theorem updLivePost_post_votes (db : DB) (pid : Nat) (f : Post → Post) :
    (updLivePost db pid f).post_votes = db.post_votes := rfl

@[simp] theorem updLivePost_comment_votes (db : DB) (pid : Nat) (f : Post → Post) :
    (updLivePost db pid f).comment_votes = db.comment_votes := rfl

@[simp] theorem updLiveComment_users (db : DB) (cid : Nat) (f : Comment → Comment) :
    (updLiveComment db cid f).users = db.users := rfl

@[simp] theorem updLiveComment_posts (db : DB) (cid : Nat) (f : Comment → Comment) :
    (updLiveComment db cid f).posts = db.posts := rfl

@[simp] theorem updLiveComment_post_votes (db : DB) (cid : Nat) (f : Comment → Comment) :
    (updLiveComment db cid f).post_votes = db.post_votes := rfl

@[simp] theorem updLiveComment_comment_votes (db : DB) (cid : Nat) (f : Comment → Comment) :
    (updLiveComment db cid f).comment_votes = db.comment_votes := rfl

@[simp] theorem updUserIfSome_posts (db : DB) (o : Option User) (f : User → User) :
    (updUserIfSome db o f).posts = db.posts := by cases o <;> rfl

@[simp] theorem updUserIfSome_comments (db : DB) (o : Option User) (f : User → User) :
    (updUserIfSome db o f).comments = db.comments := by cases o <;> rfl

@[simp] theorem updUserIfSome_post_votes (db : DB) (o : Option User) (f : User → User) :
    (updUserIfSome db o f).post_votes = db.post_votes := by cases o <;> rfl

@[simp] theorem updUserIfSome_comment_votes (db : DB) (o : Option User) (f : User → User) :
    (updUserIfSome db o f).comment_votes = db.comment_votes := by cases o <;> rfl

@[simp] theorem upvote_beq_upvote : (VoteType.upvote == VoteType.upvote) = true := rfl

@[simp] theorem upvote_beq_downvote : (VoteType.upvote == VoteType.downvote) = false := rfl

@[simp] theorem downvote_beq_upvote : (VoteType.downvote == VoteType.upvote) = false := rfl

@[simp] theorem downvote_beq_downvote : (VoteType.downvote == VoteType.downvote) = true := rfl

/-- Case analysis of a successful `vote_on_post`: exactly one of toggle-off,
change-in-place, or fresh insert happened, with the corresponding vote-row
mutation and response. -/
theorem vote_on_post_shape (db : DB) (c : Cache) (post_id : Nat) (u : User)
    (t : VoteType) (cf : Bool) (db' : DB) (c' : Cache) (out : VoteOutcome)
    (hrun : vote_on_post db c post_id u t cf = .ok (db', c', out)) :
    db'.comment_votes = db.comment_votes ∧
    ((∃ ev, db.post_votes.find? (fun v => v.post_id == post_id && v.user_id == u.id) = some ev ∧
        ev.vote_type = t ∧
        db'.post_votes = db.post_votes.eraseP (fun v => v.post_id == post_id && v.user_id == u.id) ∧
        out = .removed "Vote removed" "removed") ∨
    (∃ ev, db.post_votes.find? (fun v => v.post_id == post_id && v.user_id == u.id) = some ev ∧
        ev.vote_type ≠ t ∧
        db'.post_votes = updateFirst (fun v => v.post_id == post_id && v.user_id == u.id)
          (fun v => { v with vote_type := t }) db.post_votes ∧
        out = .voted t) ∨
    (db.post_votes.find? (fun v => v.post_id == post_id && v.user_id == u.id) = none ∧
        db'.post_votes = db.post_votes ++ [⟨post_id, u.id, t⟩] ∧
        out = .voted t)) := by
  cases hp : db.posts.find? (fun p => p.id == post_id && !p.is_deleted) with
  | none => simp [vote_on_post, hp] at hrun
  | some p =>
    cases hv : db.post_votes.find? (fun v => v.post_id == post_id && v.user_id == u.id) with
    | none =>
      cases t with
      | upvote =>
        simp only [vote_on_post, hp, hv, upvote_beq_upvote, if_true,
          Except.ok.injEq, Prod.mk.injEq] at hrun
        obtain ⟨h1, h2, h3⟩ := hrun
        refine ⟨by rw [← h1]; simp, Or.inr (Or.inr ⟨rfl, ?_, h3.symm⟩)⟩
        rw [← h1]; simp
      | downvote =>
        simp only [vote_on_post, hp, hv, downvote_beq_upvote, Bool.false_eq_true, if_false,
          Except.ok.injEq, Prod.mk.injEq] at hrun
        obtain ⟨h1, h2, h3⟩ := hrun
        refine ⟨by rw [← h1]; simp, Or.inr (Or.inr ⟨rfl, ?_, h3.symm⟩)⟩
        rw [← h1]; simp
    | some ev =>
      cases hevt : ev.vote_type with
      | upvote =>
        cases t with
        | upvote =>
          simp only [vote_on_post, hp, hv, hevt, upvote_beq_upvote, if_true,
            Except.ok.injEq, Prod.mk.injEq] at hrun
          obtain ⟨h1, h2, h3⟩ := hrun
          refine ⟨by rw [← h1]; simp, Or.inl ⟨ev, rfl, hevt, ?_, h3.symm⟩⟩
          rw [← h1]; simp
        | downvote =>
          simp only [vote_on_post, hp, hv, hevt, upvote_beq_downvote, upvote_beq_upvote,
            Bool.false_eq_true, if_false, if_true, Except.ok.injEq, Prod.mk.injEq] at hrun
          obtain ⟨h1, h2, h3⟩ := hrun
          refine ⟨by rw [← h1]; simp, Or.inr (Or.inl ⟨ev, rfl, by rw [hevt]; decide, ?_, h3.symm⟩)⟩
          rw [← h1]; simp
      | downvote =>
        cases t with
        | upvote =>
          simp only [vote_on_post, hp, hv, hevt, downvote_beq_upvote, downvote_beq_downvote,
            Bool.false_eq_true, if_false, if_true, Except.ok.injEq, Prod.mk.injEq] at hrun
          obtain ⟨h1, h2, h3⟩ := hrun
          refine ⟨by rw [← h1]; simp, Or.inr (Or.inl ⟨ev, rfl, by rw [hevt]; decide, ?_, h3.symm⟩)⟩
          rw [← h1]; simp
        | downvote =>
          simp only [vote_on_post, hp, hv, hevt, downvote_beq_downvote, if_true,
            Except.ok.injEq, Prod.mk.injEq] at hrun
          obtain ⟨h1, h2, h3⟩ := hrun
          refine ⟨by rw [← h1]; simp, Or.inl ⟨ev, rfl, hevt, ?_, h3.symm⟩⟩
          rw [← h1]; simp

/-- Case analysis of a successful `vote_on_comment`, mirroring
`vote_on_post_shape`. -/
theorem vote_on_comment_shape (db : DB) (c : Cache) (comment_id : Nat) (u : User)
    (t : VoteType) (cf : Bool) (db' : DB) (c' : Cache) (out : VoteOutcome)
    (hrun : vote_on_comment db c comment_id u t cf = .ok (db', c', out)) :
    db'.post_votes = db.post_votes ∧
    ((∃ ev, db.comment_votes.find? (fun v => v.comment_id == comment_id && v.user_id == u.id) = some ev ∧
        ev.vote_type = t ∧
        db'.comment_votes = db.comment_votes.eraseP (fun v => v.comment_id == comment_id && v.user_id == u.id) ∧
        out = .removed "Vote removed" "removed") ∨
    (∃ ev, db.comment_votes.find? (fun v => v.comment_id == comment_id && v.user_id == u.id) = some ev ∧
        ev.vote_type ≠ t ∧
        db'.comment_votes = updateFirst (fun v => v.comment_id == comment_id && v.user_id == u.id)
          (fun v => { v with vote_type := t }) db.comment_votes ∧
        out = .voted t) ∨
    (db.comment_votes.find? (fun v => v.comment_id == comment_id && v.user_id == u.id) = none ∧
        db'.comment_votes = db.comment_votes ++ [⟨comment_id, u.id, t⟩] ∧
        out = .voted t)) := by
  cases hp : db.comments.find? (fun cm => cm.id == comment_id && !cm.is_deleted) with
  | none => simp [vote_on_comment, hp] at hrun
  | some cm =>
    cases hv : db.comment_votes.find? (fun v => v.comment_id == comment_id && v.user_id == u.id) with
    | none =>
      cases t with
      | upvote =>
        simp only [vote_on_comment, hp, hv, upvote_beq_upvote, if_true,
          Except.ok.injEq, Prod.mk.injEq] at hrun
        obtain ⟨h1, h2, h3⟩ := hrun
        refine ⟨by rw [← h1]; simp, Or.inr (Or.inr ⟨rfl, ?_, h3.symm⟩)⟩
        rw [← h1]; simp
      | downvote =>
        simp only [vote_on_comment, hp, hv, downvote_beq_upvote, Bool.false_eq_true, if_false,
          Except.ok.injEq, Prod.mk.injEq] at hrun
        obtain ⟨h1, h2, h3⟩ := hrun
        refine ⟨by rw [← h1]; simp, Or.inr (Or.inr ⟨rfl, ?_, h3.symm⟩)⟩
        rw [← h1]; simp
    | some ev =>
      cases hevt : ev.vote_type with
      | upvote =>
        cases t with
        | upvote =>
          simp only [vote_on_comment, hp, hv, hevt, upvote_beq_upvote, if_true,
            Except.ok.injEq, Prod.mk.injEq] at hrun
          obtain ⟨h1, h2, h3⟩ := hrun
          refine ⟨by rw [← h1]; simp, Or.inl ⟨ev, rfl, hevt, ?_, h3.symm⟩⟩
          rw [← h1]; simp
        | downvote =>
          simp only [vote_on_comment, hp, hv, hevt, upvote_beq_downvote, upvote_beq_upvote,
            Bool.false_eq_true, if_false, if_true, Except.ok.injEq, Prod.mk.injEq] at hrun
          obtain ⟨h1, h2, h3⟩ := hrun
          refine ⟨by rw [← h1]; simp, Or.inr (Or.inl ⟨ev, rfl, by rw [hevt]; decide, ?_, h3.symm⟩)⟩
          rw [← h1]; simp
      | downvote =>
        cases t with
        | upvote =>
          simp only [vote_on_comment, hp, hv, hevt, downvote_beq_upvote, downvote_beq_downvote,
            Bool.false_eq_true, if_false, if_true, Except.ok.injEq, Prod.mk.injEq] at hrun
          obtain ⟨h1, h2, h3⟩ := hrun
          refine ⟨by rw [← h1]; simp, Or.inr (Or.inl ⟨ev, rfl, by rw [hevt]; decide, ?_, h3.symm⟩)⟩
          rw [← h1]; simp
        | downvote =>
          simp only [vote_on_comment, hp, hv, hevt, downvote_beq_downvote, if_true,
            Except.ok.injEq, Prod.mk.injEq] at hrun
          obtain ⟨h1, h2, h3⟩ := hrun
          refine ⟨by rw [← h1]; simp, Or.inl ⟨ev, rfl, hevt, ?_, h3.symm⟩⟩
          rw [← h1]; simp

/-- A failed `vote_on_post` can only be the missing/soft-deleted post case,
with the specific 404 detail string. -/
theorem vote_on_post_error (db : DB) (c : Cache) (post_id : Nat) (u : User)
    (t : VoteType) (cf : Bool) (e : Err)
    (hrun : vote_on_post db c post_id u t cf = .error e) :
    e = .notFound "Post not found" ∧
    db.posts.find? (fun p => p.id == post_id && !p.is_deleted) = none := by
  cases hp : db.posts.find? (fun p => p.id == post_id && !p.is_deleted) with
  | none =>
    simp only [vote_on_post, hp, Except.error.injEq] at hrun
    exact ⟨hrun.symm, rfl⟩
  | some p =>
    cases hv : db.post_votes.find? (fun v => v.post_id == post_id && v.user_id == u.id) with
    | none => cases t <;> simp [vote_on_post, hp, hv] at hrun
    | some ev => cases hevt : ev.vote_type <;> cases t <;> simp [vote_on_post, hp, hv, hevt] at hrun

/-- A failed `vote_on_comment` can only be the missing/soft-deleted comment
case, with the specific 404 detail string. -/
theorem vote_on_comment_error (db : DB) (c : Cache) (comment_id : Nat) (u : User)
    (t : VoteType) (cf : Bool) (e : Err)
    (hrun : vote_on_comment db c comment_id u t cf = .error e) :
    e = .notFound "Comment not found" ∧
    db.comments.find? (fun cm => cm.id == comment_id && !cm.is_deleted) = none := by
  cases hp : db.comments.find? (fun cm => cm.id == comment_id && !cm.is_deleted) with
  | none =>
    simp only [vote_on_comment, hp, Except.error.injEq] at hrun
    exact ⟨hrun.symm, rfl⟩
  | some cm =>
    cases hv : db.comment_votes.find? (fun v => v.comment_id == comment_id && v.user_id == u.id) with
    | none => cases t <;> simp [vote_on_comment, hp, hv] at hrun
    | some ev => cases hevt : ev.vote_type <;> cases t <;> simp [vote_on_comment, hp, hv, hevt] at hrun

theorem vote_on_post_preserves_unique (db : DB) (c : Cache) (post_id : Nat)
    (u : User) (t : VoteType) (cf : Bool) (db' : DB) (c' : Cache) (out : VoteOutcome)
    (hu : PostVotesUnique db)
    (hrun : vote_on_post db c post_id u t cf = .ok (db', c', out)) :
    PostVotesUnique db' := by
  rcases (vote_on_post_shape db c post_id u t cf db' c' out hrun).2 with
    ⟨ev, hv, _, hpv, _⟩ | ⟨ev, hv, _, hpv, _⟩ | ⟨hv, hpv, _⟩
  · unfold PostVotesUnique
    rw [hpv]
    exact List.Pairwise.sublist (List.eraseP_sublist _) hu
  · unfold PostVotesUnique
    rw [hpv]
    exact pairwise_updateFirst _ (fun v => { v with vote_type := t })
      (fun a b h => h) (fun a b h => h) _ hu
  · unfold PostVotesUnique
    rw [hpv]
    refine List.pairwise_append.mpr ⟨hu, List.pairwise_singleton _ _, ?_⟩
    intro x hx v' hv'
    simp only [List.mem_singleton] at hv'
    subst hv'
    rintro ⟨hpid, huid⟩
    exact List.find?_eq_none.mp hv x hx (by simp [hpid, huid])

theorem vote_on_comment_preserves_unique (db : DB) (c : Cache) (comment_id : Nat)
    (u : User) (t : VoteType) (cf : Bool) (db' : DB) (c' : Cache) (out : VoteOutcome)
    (hu : CommentVotesUnique db)
    (hrun : vote_on_comment db c comment_id u t cf = .ok (db', c', out)) :
    CommentVotesUnique db' := by
  rcases (vote_on_comment_shape db c comment_id u t cf db' c' out hrun).2 with
    ⟨ev, hv, _, hpv, _⟩ | ⟨ev, hv, _, hpv, _⟩ | ⟨hv, hpv, _⟩
  · unfold CommentVotesUnique
    rw [hpv]
    exact List.Pairwise.sublist (List.eraseP_sublist _) hu
  · unfold CommentVotesUnique
    rw [hpv]
    exact pairwise_updateFirst _ (fun v => { v with vote_type := t })
      (fun a b h => h) (fun a b h => h) _ hu
  · unfold CommentVotesUnique
    rw [hpv]
    refine List.pairwise_append.mpr ⟨hu, List.pairwise_singleton _ _, ?_⟩
    intro x hx v' hv'
    simp only [List.mem_singleton] at hv'
    subst hv'
    rintro ⟨hcid, huid⟩
    exact List.find?_eq_none.mp hv x hx (by simp [hcid, huid])

theorem postVotes_countP_le_one (db : DB) (hu : PostVotesUnique db)
    (pid uid : Nat) :
    db.post_votes.countP (fun v => v.post_id == pid && v.user_id == uid) ≤ 1 := by
  refine countP_le_one_of_pairwise_key
    (k := fun v : PostVote => (v.post_id, v.user_id)) ?_ _ (pid, uid) ?_
  · exact hu.imp (fun h heq => h (by
      exact ⟨congrArg Prod.fst heq, congrArg Prod.snd heq⟩))
  · intro x hx
    simp only [Bool.and_eq_true, beq_iff_eq] at hx
    simp [hx.1, hx.2]

theorem commentVotes_countP_le_one (db : DB) (hu : CommentVotesUnique db)
    (cid uid : Nat) :
    db.comment_votes.countP (fun v => v.comment_id == cid && v.user_id == uid) ≤ 1 := by
  refine countP_le_one_of_pairwise_key
    (k := fun v : CommentVote => (v.comment_id, v.user_id)) ?_ _ (cid, uid) ?_
  · exact hu.imp (fun h heq => h (by
      exact ⟨congrArg Prod.fst heq, congrArg Prod.snd heq⟩))
  · intro x hx
    simp only [Bool.and_eq_true, beq_iff_eq] at hx
    simp [hx.1, hx.2]

theorem applyVoteOp_unique (db : DB) (op : VoteOp)
    (hp : PostVotesUnique db) (hc : CommentVotesUnique db) :
    PostVotesUnique (applyVoteOp db op) ∧ CommentVotesUnique (applyVoteOp db op) := by
  cases op with
  | onPost pid u t =>
    cases hr : vote_on_post db [] pid u t false with
    | error e => simpa [applyVoteOp, stepDB, hr] using ⟨hp, hc⟩
    | ok x =>
      obtain ⟨db', c', out⟩ := x
      have hframe := (vote_on_post_shape db [] pid u t false db' c' out hr).1
      constructor
      · simpa [applyVoteOp, stepDB, hr] using
          vote_on_post_preserves_unique db [] pid u t false db' c' out hp hr
      · simp only [applyVoteOp, stepDB, hr]
        unfold CommentVotesUnique
        rw [hframe]
        exact hc
  | onComment cid u t =>
    cases hr : vote_on_comment db [] cid u t false with
    | error e => simpa [applyVoteOp, stepDB, hr] using ⟨hp, hc⟩
    | ok x =>
      obtain ⟨db', c', out⟩ := x
      have hframe := (vote_on_comment_shape db [] cid u t false db' c' out hr).1
      constructor
      · simp only [applyVoteOp, stepDB, hr]
        unfold PostVotesUnique
        rw [hframe]
        exact hp
      · simpa [applyVoteOp, stepDB, hr] using
          vote_on_comment_preserves_unique db [] cid u t false db' c' out hc hr

theorem runVoteOps_unique (db : DB) (ops : List VoteOp)
    (hp : PostVotesUnique db) (hc : CommentVotesUnique db) :
    PostVotesUnique (runVoteOps db ops) ∧ CommentVotesUnique (runVoteOps db ops) := by
  induction ops generalizing db with
  | nil => exact ⟨hp, hc⟩
  | cons op ops ih =>
    obtain ⟨hp', hc'⟩ := applyVoteOp_unique db op hp hc
    simpa [runVoteOps] using ih (applyVoteOp db op) hp' hc'

/-- C5: across any sequence of `vote_on_post` / `vote_on_comment` requests,
each user keeps at most one PostVote row per post and at most one CommentVote
row per comment: the pairwise-uniqueness invariant is preserved, and every
(user, target) pair counts at most one row in the final store — hence, by the
same argument applied to every prefix, at all intermediate times too. -/
theorem vote_rows_unique_per_user_target (db : DB) (ops : List VoteOp)
    (hp : PostVotesUnique db) (hc : CommentVotesUnique db) :
    (PostVotesUnique (runVoteOps db ops) ∧ CommentVotesUnique (runVoteOps db ops)) ∧
    (∀ pid uid, (runVoteOps db ops).post_votes.countP
        (fun v => v.post_id == pid && v.user_id == uid) ≤ 1) ∧
    (∀ cid uid, (runVoteOps db ops).comment_votes.countP
        (fun v => v.comment_id == cid && v.user_id == uid) ≤ 1) := by
  obtain ⟨hp', hc'⟩ := runVoteOps_unique db ops hp hc
  exact ⟨⟨hp', hc'⟩, fun pid uid => postVotes_countP_le_one _ hp' pid uid,
    fun cid uid => commentVotes_countP_le_one _ hc' cid uid⟩

/-- Witness for C5 at a concrete store and request sequence. -/
theorem vote_rows_unique_per_user_target_witness :
    (PostVotesUnique sampleDB ∧ CommentVotesUnique sampleDB) ∧
    ((PostVotesUnique (runVoteOps sampleDB
        [.onPost 1 sampleVoter .upvote, .onComment 1 sampleVoter .downvote,
         .onPost 1 sampleVoter .upvote]) ∧
      CommentVotesUnique (runVoteOps sampleDB
        [.onPost 1 sampleVoter .upvote, .onComment 1 sampleVoter .downvote,
         .onPost 1 sampleVoter .upvote])) ∧
     (∀ pid uid, (runVoteOps sampleDB
        [.onPost 1 sampleVoter .upvote, .onComment 1 sampleVoter .downvote,
         .onPost 1 sampleVoter .upvote]).post_votes.countP
          (fun v => v.post_id == pid && v.user_id == uid) ≤ 1) ∧
     (∀ cid uid, (runVoteOps sampleDB
        [.onPost 1 sampleVoter .upvote, .onComment 1 sampleVoter .downvote,
         .onPost 1 sampleVoter .upvote]).comment_votes.countP
          (fun v => v.comment_id == cid && v.user_id == uid) ≤ 1)) :=
  ⟨⟨List.Pairwise.nil, List.Pairwise.nil⟩,
   vote_rows_unique_per_user_target sampleDB
     [.onPost 1 sampleVoter .upvote, .onComment 1 sampleVoter .downvote,
      .onPost 1 sampleVoter .upvote] List.Pairwise.nil List.Pairwise.nil⟩

theorem updUserIfSome_users (db : DB) (o : Option User) (f : User → User) :
    (updUserIfSome db o f).users = updUsersIfSome db.users o f := by
  cases o <;> rfl

theorem eq_of_find?_of_mem (q : α → Bool) (l : List α) (x y : α)
    (hcnt : l.countP q ≤ 1) (hf : l.find? q = some x) (hy : y ∈ l)
    (hqy : q y = true) : x = y := by
  induction l with
  | nil => simp at hy
  | cons h tl ih =>
    cases hq : q h with
    | true =>
      rw [List.find?_cons, hq] at hf
      injection hf with hx
      have h0 : tl.countP q = 0 := by
        have hc := List.countP_cons q h tl
        rw [if_pos hq] at hc
        omega
      rcases List.mem_cons.mp hy with hh | hy'
      · rw [← hx, hh]
      · exact absurd hqy (List.countP_eq_zero.mp h0 y hy')
    | false =>
      rw [List.find?_cons, hq] at hf
      have hle : tl.countP q ≤ 1 := by
        have hc := List.countP_cons q h tl
        rw [if_neg (by simp [hq])] at hc
        omega
      rcases List.mem_cons.mp hy with hh | hy'
      · rw [hh] at hqy
        exact absurd hqy (by simp [hq])
      · exact ih hle hf hy'

/-- Case analysis of a successful `accept_answer`: the guards that passed and
the exact store mutation of each of the unaccept / fresh-accept / transfer
branches. -/
theorem accept_answer_shape (db : DB) (c : Cache) (post_id comment_id : Nat)
    (cu : User) (cf : Bool) (db' : DB) (c' : Cache) (r : AcceptResult)
    (hrun : accept_answer db c post_id comment_id cu cf = .ok (db', c', r)) :
    ∃ post comment,
      db.posts.find? (fun p => p.id == post_id && !p.is_deleted) = some post ∧
      post.author_id = cu.id ∧ post.post_type = .question ∧
      db.comments.find? (fun cm => cm.id == comment_id && cm.post_id == post_id && !cm.is_deleted)
        = some comment ∧
      ((comment.is_accepted = true ∧ post.accepted_answer_id = some comment_id ∧
        db'.comments = updateFirst
          (fun cm => cm.id == comment_id && cm.post_id == post_id && !cm.is_deleted)
          (fun cm => { cm with is_accepted := false }) db.comments ∧
        db'.posts = updateFirst (fun p => p.id == post_id && !p.is_deleted)
          (fun p => { p with accepted_answer_id := none }) db.posts ∧
        db'.users = updUsersIfSome db.users
          (db.users.find? (fun x => x.id == comment.author_id))
          (fun u => { u with karma_score := u.karma_score - 15 }) ∧
        r = ⟨"Answer unaccepted", false⟩) ∨
      (¬(comment.is_accepted = true ∧ post.accepted_answer_id = some comment_id) ∧
        db'.posts = updateFirst (fun p => p.id == post_id && !p.is_deleted)
          (fun p => { p with accepted_answer_id := some comment_id }) db.posts ∧
        r = ⟨"Answer accepted", true⟩ ∧
        ((post.accepted_answer_id = none ∧
          db'.comments = updateFirst
            (fun cm => cm.id == comment_id && cm.post_id == post_id && !cm.is_deleted)
            (fun cm => { cm with is_accepted := true }) db.comments ∧
          db'.users = updUsersIfSome db.users
            (db.users.find? (fun x => x.id == comment.author_id))
            (fun u => { u with karma_score := u.karma_score + 15 })) ∨
        (∃ old_id old_accepted, post.accepted_answer_id = some old_id ∧
          db.comments.find? (fun cm => cm.id == old_id) = some old_accepted ∧
          db'.comments = updateFirst
            (fun cm => cm.id == comment_id && cm.post_id == post_id && !cm.is_deleted)
            (fun cm => { cm with is_accepted := true })
            (updateFirst (fun cm => cm.id == old_id)
              (fun cm => { cm with is_accepted := false }) db.comments) ∧
          db'.users =
            (let us1 := updUsersIfSome db.users
              (db.users.find? (fun x => x.id == old_accepted.author_id))
              (fun u => { u with karma_score := u.karma_score - 15 })
             updUsersIfSome us1 (us1.find? (fun x => x.id == comment.author_id))
              (fun u => { u with karma_score := u.karma_score + 15 }))) ∨
        (∃ old_id, post.accepted_answer_id = some old_id ∧
          db.comments.find? (fun cm => cm.id == old_id) = none ∧
          db'.comments = updateFirst
            (fun cm => cm.id == comment_id && cm.post_id == post_id && !cm.is_deleted)
            (fun cm => { cm with is_accepted := true }) db.comments ∧
          db'.users = updUsersIfSome db.users
            (db.users.find? (fun x => x.id == comment.author_id))
            (fun u => { u with karma_score := u.karma_score + 15 }))))) := by
  cases hp : db.posts.find? (fun p => p.id == post_id && !p.is_deleted) with
  | none => simp [accept_answer, hp] at hrun
  | some post =>
  cases hne : post.author_id != cu.id with
  | true => simp [accept_answer, hp, hne] at hrun
  | false =>
  have hauth : post.author_id = cu.id := bne_eq_false_iff_eq.mp hne
  cases hq : post.post_type != PostType.question with
  | true => simp [accept_answer, hp, hne, hq] at hrun
  | false =>
  have hquestion : post.post_type = PostType.question := bne_eq_false_iff_eq.mp hq
  cases hcm : db.comments.find?
      (fun cm => cm.id == comment_id && cm.post_id == post_id && !cm.is_deleted) with
  | none => simp [accept_answer, hp, hne, hq, hcm] at hrun
  | some comment =>
  refine ⟨post, comment, rfl, hauth, hquestion, rfl, ?_⟩
  rcases Bool.eq_false_or_eq_true
      (comment.is_accepted && post.accepted_answer_id == some comment_id) with hacc | hacc
  · -- the unaccept branch (guard true)
    simp only [accept_answer, hp, hne, hq, hcm, hacc, Bool.false_eq_true, if_false, if_true,
      Except.ok.injEq, Prod.mk.injEq] at hrun
    obtain ⟨rfl, rfl, rfl⟩ := hrun
    simp only [Bool.and_eq_true, beq_iff_eq] at hacc
    refine Or.inl ⟨hacc.1, hacc.2, ?_, ?_, ?_, rfl⟩
    · simp
    · simp [updLivePost]
    · simp [updUserIfSome_users]
  · -- the accept / transfer branch (guard false)
    have haccp : ¬(comment.is_accepted = true ∧ post.accepted_answer_id = some comment_id) := by
      rintro ⟨hx, hy⟩
      have hb : (comment.is_accepted && post.accepted_answer_id == some comment_id) = true := by
        simp [hx, hy]
      rw [hacc] at hb
      exact absurd hb (by simp)
    simp only [accept_answer, hp, hne, hq, hcm, hacc, Bool.false_eq_true, if_false] at hrun
    cases hold : post.accepted_answer_id with
    | none =>
      simp only [hold, Except.ok.injEq, Prod.mk.injEq] at hrun
      obtain ⟨rfl, rfl, rfl⟩ := hrun
      refine Or.inr ⟨fun h => haccp ⟨h.1, hold.trans h.2⟩, ?_, rfl, Or.inl ⟨rfl, ?_, ?_⟩⟩
      · simp [updLivePost]
      · simp
      · simp [updUserIfSome_users]
    | some old_id =>
      cases holdc : db.comments.find? (fun cm => cm.id == old_id) with
      | some old_accepted =>
        simp only [hold, holdc, Except.ok.injEq, Prod.mk.injEq] at hrun
        obtain ⟨rfl, rfl, rfl⟩ := hrun
        refine Or.inr ⟨fun h => haccp ⟨h.1, hold.trans h.2⟩, ?_, rfl,
          Or.inr (Or.inl ⟨old_id, old_accepted, rfl, holdc, ?_, ?_⟩)⟩
        · simp [updLivePost]
        · simp
        · simp [updUserIfSome_users, updUsersIfSome]
      | none =>
        simp only [hold, holdc, Except.ok.injEq, Prod.mk.injEq] at hrun
        obtain ⟨rfl, rfl, rfl⟩ := hrun
        refine Or.inr ⟨fun h => haccp ⟨h.1, hold.trans h.2⟩, ?_, rfl,
          Or.inr (Or.inr ⟨old_id, rfl, holdc, ?_, ?_⟩)⟩
        · simp [updLivePost]
        · simp
        · simp [updUserIfSome_users]

theorem eq_of_pairwise_key {κ : Type v} {k : α → κ} {l : List α} {x y : α}
    (hu : l.Pairwise (fun a b => k a ≠ k b)) (hx : x ∈ l) (hy : y ∈ l)
    (hk : k x = k y) : x = y := by
  induction l with
  | nil => simp at hx
  | cons h tl ih =>
    rcases List.pairwise_cons.mp hu with ⟨hh, htl⟩
    rcases List.mem_cons.mp hx with rfl | hx'
    · rcases List.mem_cons.mp hy with rfl | hy'
      · rfl
      · exact absurd hk (hh y hy')
    · rcases List.mem_cons.mp hy with rfl | hy'
      · exact absurd hk.symm (hh x hx')
      · exact ih htl hx' hy'

theorem accept_answer_inv_step (db : DB) (c : Cache) (post_id comment_id : Nat)
    (cu : User) (cf : Bool) (db' : DB) (c' : Cache) (r : AcceptResult)
    (hpu : PostsUniqueIds db) (hcu : CommentsUniqueIds db) (hinv : AcceptInv db)
    (hrun : accept_answer db c post_id comment_id cu cf = .ok (db', c', r)) :
    PostsUniqueIds db' ∧ CommentsUniqueIds db' ∧ AcceptInv db' := by
  obtain ⟨post, comment, hp, hauth, hquestion, hcm, hbr⟩ :=
    accept_answer_shape db c post_id comment_id cu cf db' c' r hrun
  have hpostmem : post ∈ db.posts := List.mem_of_find?_eq_some hp
  have hcmmem : comment ∈ db.comments := List.mem_of_find?_eq_some hcm
  have hppred := List.find?_some hp
  have hcpred := List.find?_some hcm
  simp only [Bool.and_eq_true, beq_iff_eq, Bool.not_eq_true'] at hppred hcpred
  obtain ⟨hpostid, hpostlive⟩ := hppred
  obtain ⟨⟨hcmid, hcmpost⟩, hcmlive⟩ := hcpred
  have hcntP : db.posts.countP (fun p => p.id == post_id && !p.is_deleted) ≤ 1 :=
    countP_le_one_of_pairwise_key hpu _ post_id (fun x hx => by
      simp only [Bool.and_eq_true, beq_iff_eq] at hx
      exact hx.1)
  have hcntC : db.comments.countP
      (fun cm => cm.id == comment_id && cm.post_id == post_id && !cm.is_deleted) ≤ 1 :=
    countP_le_one_of_pairwise_key hcu _ comment_id (fun x hx => by
      simp only [Bool.and_eq_true, beq_iff_eq] at hx
      exact hx.1.1)
  obtain ⟨hinv1, hinv2, hinv3⟩ := hinv
  rcases hbr with ⟨hacc1, hacc2, hcs, hps, hus, hr⟩ | ⟨haccp, hps, hr, hsub⟩
  · -- unaccept branch
    rw [updateFirst_eq_map _ _ _ hcntC] at hcs
    rw [updateFirst_eq_map _ _ _ hcntP] at hps
    have hpredpost : (post.id == post_id && !post.is_deleted) = true := by
      simp [hpostid, hpostlive]
    have hpredcm : (comment.id == comment_id && comment.post_id == post_id
        && !comment.is_deleted) = true := by
      simp [hcmid, hcmpost, hcmlive]
    refine ⟨?_, ?_, ?_, ?_, ?_⟩
    · unfold PostsUniqueIds
      rw [hps, List.pairwise_map]
      refine List.Pairwise.imp ?_ hpu
      intro a b h heq
      apply h
      by_cases ha : (a.id == post_id && !a.is_deleted) = true <;>
        by_cases hb : (b.id == post_id && !b.is_deleted) = true <;>
        simpa [ha, hb] using heq
    · unfold CommentsUniqueIds
      rw [hcs, List.pairwise_map]
      refine List.Pairwise.imp ?_ hcu
      intro a b h heq
      apply h
      by_cases ha : (a.id == comment_id && a.post_id == post_id && !a.is_deleted) = true <;>
        by_cases hb : (b.id == comment_id && b.post_id == post_id && !b.is_deleted) = true <;>
        simpa [ha, hb] using heq
    · rw [hcs, hps]
      intro cm' hcm' hacc' p' hp' hpid'
      obtain ⟨x, hx, rfl⟩ := List.mem_map.mp hcm'
      obtain ⟨y, hy, rfl⟩ := List.mem_map.mp hp'
      by_cases hqx : (x.id == comment_id && x.post_id == post_id && !x.is_deleted) = true
      · rw [if_pos hqx] at hacc'
        simp at hacc'
      · rw [if_neg hqx] at hacc' hpid' ⊢
        by_cases hqy : (y.id == post_id && !y.is_deleted) = true
        · have hey : post = y := eq_of_find?_of_mem _ _ post y hcntP hp hy hqy
          subst hey
          rw [if_pos hqy] at hpid'
          simp only at hpid'
          have h1 := hinv1 x hx hacc' post hpostmem hpid'
          rw [hacc2] at h1
          have hxid : x.id = comment_id := (Option.some.inj h1).symm
          have hxeq : x = comment := eq_of_pairwise_key hcu hx hcmmem (by rw [hxid, hcmid])
          exact absurd (by rw [hxeq]; exact hpredcm) hqx
        · rw [if_neg hqy] at hpid' ⊢
          exact hinv1 x hx hacc' y hy hpid'
    · rw [hcs, hps]
      intro p' hp' cm' hcm' hpacc'
      obtain ⟨y, hy, rfl⟩ := List.mem_map.mp hp'
      obtain ⟨x, hx, rfl⟩ := List.mem_map.mp hcm'
      have hidx : (if (x.id == comment_id && x.post_id == post_id && !x.is_deleted) = true
          then ({ x with is_accepted := false } : Comment) else x).id = x.id := by
        by_cases hqx : (x.id == comment_id && x.post_id == post_id && !x.is_deleted) = true <;>
          simp [hqx]
      rw [hidx] at hpacc'
      by_cases hqy : (y.id == post_id && !y.is_deleted) = true
      · rw [if_pos hqy] at hpacc'
        simp at hpacc'
      · rw [if_neg hqy] at hpacc' ⊢
        obtain ⟨hxpost, hxacc⟩ := hinv2 y hy x hx hpacc'
        by_cases hqx : (x.id == comment_id && x.post_id == post_id && !x.is_deleted) = true
        · -- x is the freshly unaccepted comment: impossible, y would be the live post
          simp only [Bool.and_eq_true, beq_iff_eq, Bool.not_eq_true'] at hqx
          have hyid : y.id = post_id := by rw [← hxpost, hqx.1.2]
          have hyeq : post = y := eq_of_pairwise_key hpu hpostmem hy (by rw [hpostid, hyid])
          subst hyeq
          exact absurd hpredpost hqy
        · rw [if_neg hqx]
          exact ⟨hxpost, hxacc⟩
    · rw [hcs, hps]
      intro p' hp' hsome
      obtain ⟨y, hy, rfl⟩ := List.mem_map.mp hp'
      by_cases hqy : (y.id == post_id && !y.is_deleted) = true
      · rw [if_pos hqy] at hsome
        simp at hsome
      · rw [if_neg hqy] at hsome ⊢
        obtain ⟨cm, hcmm, hcmeq⟩ := hinv3 y hy hsome
        refine ⟨(if (cm.id == comment_id && cm.post_id == post_id && !cm.is_deleted) = true
          then ({ cm with is_accepted := false } : Comment) else cm), ?_, ?_⟩
        · exact List.mem_map.mpr ⟨cm, hcmm, rfl⟩
        · by_cases hqc : (cm.id == comment_id && cm.post_id == post_id && !cm.is_deleted) = true <;>
            simpa [hqc] using hcmeq
  · -- accept / transfer branch
    have hpredpost : (post.id == post_id && !post.is_deleted) = true := by
      simp [hpostid, hpostlive]
    have hpredcm : (comment.id == comment_id && comment.post_id == post_id
        && !comment.is_deleted) = true := by
      simp [hcmid, hcmpost, hcmlive]
    have hsameidP : ∀ y ∈ db.posts, y.id = post_id → y = post := fun y hy hid =>
      (eq_of_pairwise_key hpu hpostmem hy (by rw [hpostid, hid])).symm
    have hsameidC : ∀ x ∈ db.comments, x.id = comment_id → x = comment := fun x hx hid =>
      (eq_of_pairwise_key hcu hcmmem hx (by rw [hcmid, hid])).symm
    rcases hsub with ⟨hold, hcs, hus⟩ | ⟨old_id, old_accepted, hold, holdc, hcs, hus⟩ |
      ⟨old_id, hold, holdc, hcs, hus⟩
    · -- fresh accept, no previous answer
      rw [updateFirst_eq_map _ _ _ hcntC] at hcs
      rw [updateFirst_eq_map _ _ _ hcntP] at hps
      refine ⟨?_, ?_, ?_, ?_, ?_⟩
      · unfold PostsUniqueIds
        rw [hps, List.pairwise_map]
        refine List.Pairwise.imp ?_ hpu
        intro a b h heq
        apply h
        by_cases ha : (a.id == post_id && !a.is_deleted) = true <;>
          by_cases hb : (b.id == post_id && !b.is_deleted) = true <;>
          simpa [ha, hb] using heq
      · unfold CommentsUniqueIds
        rw [hcs, List.pairwise_map]
        refine List.Pairwise.imp ?_ hcu
        intro a b h heq
        apply h
        by_cases ha : (a.id == comment_id && a.post_id == post_id && !a.is_deleted) = true <;>
          by_cases hb : (b.id == comment_id && b.post_id == post_id && !b.is_deleted) = true <;>
          simpa [ha, hb] using heq
      · rw [hcs, hps]
        intro cm' hcm' hacc' p' hp' hpid'
        obtain ⟨x, hx, rfl⟩ := List.mem_map.mp hcm'
        obtain ⟨y, hy, rfl⟩ := List.mem_map.mp hp'
        by_cases hqx : (x.id == comment_id && x.post_id == post_id && !x.is_deleted) = true
        · have hqx' := hqx
          simp only [Bool.and_eq_true, beq_iff_eq, Bool.not_eq_true'] at hqx'
          rw [if_pos hqx] at hpid' ⊢
          by_cases hqy : (y.id == post_id && !y.is_deleted) = true
          · rw [if_pos hqy] at hpid' ⊢
            show (some comment_id : Option Nat) = some x.id
            rw [hqx'.1.1]
          · rw [if_neg hqy] at hpid' ⊢
            have hyid : y.id = post_id := by
              rw [hpid']
              exact hqx'.1.2
            have hyeq := hsameidP y hy hyid
            rw [hyeq] at hqy
            exact absurd hpredpost hqy
        · rw [if_neg hqx] at hacc' hpid' ⊢
          by_cases hqy : (y.id == post_id && !y.is_deleted) = true
          · have hey : post = y := eq_of_find?_of_mem _ _ post y hcntP hp hy hqy
            subst hey
            rw [if_pos hqy] at hpid' ⊢
            have h1 := hinv1 x hx hacc' post hpostmem hpid'
            rw [hold] at h1
            exact absurd h1 (by simp)
          · rw [if_neg hqy] at hpid' ⊢
            exact hinv1 x hx hacc' y hy hpid'
      · rw [hcs, hps]
        intro p' hp' cm' hcm' hpacc'
        obtain ⟨y, hy, rfl⟩ := List.mem_map.mp hp'
        obtain ⟨x, hx, rfl⟩ := List.mem_map.mp hcm'
        have hidx : (if (x.id == comment_id && x.post_id == post_id && !x.is_deleted) = true
            then ({ x with is_accepted := true } : Comment) else x).id = x.id := by
          by_cases hqx : (x.id == comment_id && x.post_id == post_id && !x.is_deleted) = true <;>
            simp [hqx]
        rw [hidx] at hpacc'
        by_cases hqy : (y.id == post_id && !y.is_deleted) = true
        · have hey : post = y := eq_of_find?_of_mem _ _ post y hcntP hp hy hqy
          subst hey
          rw [if_pos hqy] at hpacc' ⊢
          have hxid : x.id = comment_id := by
            have : (some comment_id : Option Nat) = some x.id := hpacc'
            exact (Option.some.inj this).symm
          have hxeq := hsameidC x hx hxid
          subst hxeq
          rw [if_pos hpredcm]
          exact ⟨by rw [hcmpost, hpostid], rfl⟩
        · rw [if_neg hqy] at hpacc' ⊢
          obtain ⟨hxpost, hxacc⟩ := hinv2 y hy x hx hpacc'
          by_cases hqx : (x.id == comment_id && x.post_id == post_id && !x.is_deleted) = true
          · rw [if_pos hqx]
            exact ⟨hxpost, rfl⟩
          · rw [if_neg hqx]
            exact ⟨hxpost, hxacc⟩
      · rw [hcs, hps]
        intro p' hp' hsome
        obtain ⟨y, hy, rfl⟩ := List.mem_map.mp hp'
        by_cases hqy : (y.id == post_id && !y.is_deleted) = true
        · rw [if_pos hqy] at hsome ⊢
          refine ⟨(if (comment.id == comment_id && comment.post_id == post_id
              && !comment.is_deleted) = true
            then ({ comment with is_accepted := true } : Comment) else comment), ?_, ?_⟩
          · exact List.mem_map.mpr ⟨comment, hcmmem, rfl⟩
          · rw [if_pos hpredcm]
            show (some comment.id : Option Nat) = some comment_id
            rw [hcmid]
        · rw [if_neg hqy] at hsome ⊢
          obtain ⟨cm, hcmm, hcmeq⟩ := hinv3 y hy hsome
          refine ⟨(if (cm.id == comment_id && cm.post_id == post_id && !cm.is_deleted) = true
            then ({ cm with is_accepted := true } : Comment) else cm), ?_, ?_⟩
          · exact List.mem_map.mpr ⟨cm, hcmm, rfl⟩
          · by_cases hqc : (cm.id == comment_id && cm.post_id == post_id
                && !cm.is_deleted) = true <;>
              simpa [hqc] using hcmeq
    · -- transfer from the previously accepted answer
      have holdmem : old_accepted ∈ db.comments := List.mem_of_find?_eq_some holdc
      have holdid : old_accepted.id = old_id := by
        have := List.find?_some holdc
        simpa using this
      have hsameidOld : ∀ x ∈ db.comments, x.id = old_id → x = old_accepted := fun x hx hid =>
        (eq_of_pairwise_key hcu holdmem hx (by rw [holdid, hid])).symm
      have hcntOld : db.comments.countP (fun z => z.id == old_id) ≤ 1 :=
        countP_le_one_of_pairwise_key hcu _ old_id (fun x hx => by simpa using hx)
      have hcntC2 : (updateFirst (fun z : Comment => z.id == old_id)
          (fun z => { z with is_accepted := false }) db.comments).countP
          (fun cm => cm.id == comment_id && cm.post_id == post_id && !cm.is_deleted) ≤ 1 := by
        rw [countP_updateFirst (fun z : Comment => z.id == old_id)
          (fun cm => cm.id == comment_id && cm.post_id == post_id && !cm.is_deleted)
          (fun z => { z with is_accepted := false }) (fun z => rfl) db.comments]
        exact hcntC
      rw [updateFirst_eq_map _ _ _ hcntC2, updateFirst_eq_map _ _ _ hcntOld] at hcs
      rw [updateFirst_eq_map _ _ _ hcntP] at hps
      have hgold_id : ∀ z : Comment, (if (z.id == old_id) = true
          then ({ z with is_accepted := false } : Comment) else z).id = z.id := fun z => by
        by_cases h : (z.id == old_id) = true <;> simp [h]
      have hgold_post : ∀ z : Comment, (if (z.id == old_id) = true
          then ({ z with is_accepted := false } : Comment) else z).post_id = z.post_id := fun z => by
        by_cases h : (z.id == old_id) = true <;> simp [h]
      have hgold_del : ∀ z : Comment, (if (z.id == old_id) = true
          then ({ z with is_accepted := false } : Comment) else z).is_deleted = z.is_deleted := fun z => by
        by_cases h : (z.id == old_id) = true <;> simp [h]
      have hgc2_id : ∀ z : Comment, (if (z.id == comment_id && z.post_id == post_id
          && !z.is_deleted) = true
          then ({ z with is_accepted := true } : Comment) else z).id = z.id := fun z => by
        by_cases h : (z.id == comment_id && z.post_id == post_id && !z.is_deleted) = true <;>
          simp [h]
      refine ⟨?_, ?_, ?_, ?_, ?_⟩
      · unfold PostsUniqueIds
        rw [hps, List.pairwise_map]
        refine List.Pairwise.imp ?_ hpu
        intro a b h heq
        apply h
        by_cases ha : (a.id == post_id && !a.is_deleted) = true <;>
          by_cases hb : (b.id == post_id && !b.is_deleted) = true <;>
          simpa [ha, hb] using heq
      · unfold CommentsUniqueIds
        rw [hcs, List.pairwise_map, List.pairwise_map]
        refine List.Pairwise.imp ?_ hcu
        intro a b h heq
        apply h
        rw [hgc2_id, hgc2_id, hgold_id, hgold_id] at heq
        exact heq
      · rw [hcs, hps]
        intro cm' hcm' hacc' p' hp' hpid'
        obtain ⟨w, hw, rfl⟩ := List.mem_map.mp hcm'
        obtain ⟨x, hx, rfl⟩ := List.mem_map.mp hw
        obtain ⟨y, hy, rfl⟩ := List.mem_map.mp hp'
        by_cases hqx : ((if (x.id == old_id) = true
            then ({ x with is_accepted := false } : Comment) else x).id == comment_id &&
            (if (x.id == old_id) = true
            then ({ x with is_accepted := false } : Comment) else x).post_id == post_id &&
            !(if (x.id == old_id) = true
            then ({ x with is_accepted := false } : Comment) else x).is_deleted) = true
        · have hqx' := hqx
          rw [hgold_id, hgold_post, hgold_del] at hqx'
          simp only [Bool.and_eq_true, beq_iff_eq, Bool.not_eq_true'] at hqx'
          rw [if_pos hqx] at hpid' ⊢
          by_cases hqy : (y.id == post_id && !y.is_deleted) = true
          · rw [if_pos hqy] at hpid' ⊢
            show (some comment_id : Option Nat) = some
              (if (x.id == old_id) = true
                then ({ x with is_accepted := false } : Comment) else x).id
            rw [hgold_id, hqx'.1.1]
          · rw [if_neg hqy] at hpid' ⊢
            have hyid : y.id = post_id := by
              rw [hpid']
              show (if (x.id == old_id) = true
                then ({ x with is_accepted := false } : Comment) else x).post_id = post_id
              rw [hgold_post]
              exact hqx'.1.2
            have hyeq := hsameidP y hy hyid
            rw [hyeq] at hqy
            exact absurd hpredpost hqy
        · rw [if_neg hqx] at hacc' hpid' ⊢
          by_cases hqold : (x.id == old_id) = true
          · rw [if_pos hqold] at hacc'
            simp at hacc'
          · rw [if_neg hqold] at hacc' hpid' ⊢
            by_cases hqy : (y.id == post_id && !y.is_deleted) = true
            · have hey : post = y := eq_of_find?_of_mem _ _ post y hcntP hp hy hqy
              subst hey
              rw [if_pos hqy] at hpid' ⊢
              have h1 := hinv1 x hx hacc' post hpostmem hpid'
              rw [hold] at h1
              have : x.id = old_id := (Option.some.inj h1).symm
              exact absurd (by simp [this]) hqold
            · rw [if_neg hqy] at hpid' ⊢
              exact hinv1 x hx hacc' y hy hpid'
      · rw [hcs, hps]
        intro p' hp' cm' hcm' hpacc'
        obtain ⟨y, hy, rfl⟩ := List.mem_map.mp hp'
        obtain ⟨w, hw, rfl⟩ := List.mem_map.mp hcm'
        obtain ⟨x, hx, rfl⟩ := List.mem_map.mp hw
        rw [hgc2_id, hgold_id] at hpacc'
        by_cases hqy : (y.id == post_id && !y.is_deleted) = true
        · have hey : post = y := eq_of_find?_of_mem _ _ post y hcntP hp hy hqy
          subst hey
          rw [if_pos hqy] at hpacc' ⊢
          have hxid : x.id = comment_id := (Option.some.inj hpacc').symm
          have hxeq := hsameidC x hx hxid
          subst hxeq
          have hqc : ((if (x.id == old_id) = true
              then ({ x with is_accepted := false } : Comment) else x).id == comment_id &&
              (if (x.id == old_id) = true
              then ({ x with is_accepted := false } : Comment) else x).post_id == post_id &&
              !(if (x.id == old_id) = true
              then ({ x with is_accepted := false } : Comment) else x).is_deleted) = true := by
            rw [hgold_id, hgold_post, hgold_del]
            exact hpredcm
          rw [if_pos hqc]
          refine ⟨?_, rfl⟩
          show (if (x.id == old_id) = true
            then ({ x with is_accepted := false } : Comment) else x).post_id = post.id
          rw [hgold_post, hcmpost, hpostid]
        · rw [if_neg hqy] at hpacc' ⊢
          obtain ⟨hxpost, hxacc⟩ := hinv2 y hy x hx hpacc'
          by_cases hqc : ((if (x.id == old_id) = true
              then ({ x with is_accepted := false } : Comment) else x).id == comment_id &&
              (if (x.id == old_id) = true
              then ({ x with is_accepted := false } : Comment) else x).post_id == post_id &&
              !(if (x.id == old_id) = true
              then ({ x with is_accepted := false } : Comment) else x).is_deleted) = true
          · rw [if_pos hqc]
            refine ⟨?_, rfl⟩
            show (if (x.id == old_id) = true
              then ({ x with is_accepted := false } : Comment) else x).post_id = y.id
            rw [hgold_post]
            exact hxpost
          · rw [if_neg hqc]
            by_cases hqold : (x.id == old_id) = true
            · -- x is the old accepted answer and y points at it: y must be the live post
              have hxold : x = old_accepted := hsameidOld x hx (by simpa using hqold)
              have h2 := hinv2 post hpostmem x hx (by rw [hold, hxold, holdid])
              have hyid : y.id = post_id := by rw [← hxpost, h2.1, hpostid]
              have hyeq := hsameidP y hy hyid
              rw [hyeq] at hqy
              exact absurd hpredpost hqy
            · rw [if_neg hqold]
              exact ⟨hxpost, hxacc⟩
      · rw [hcs, hps]
        intro p' hp' hsome
        obtain ⟨y, hy, rfl⟩ := List.mem_map.mp hp'
        by_cases hqy : (y.id == post_id && !y.is_deleted) = true
        · rw [if_pos hqy] at hsome ⊢
          refine ⟨_, List.mem_map.mpr ⟨_, List.mem_map.mpr ⟨comment, hcmmem, rfl⟩, rfl⟩, ?_⟩
          rw [hgc2_id, hgold_id]
          show (some comment.id : Option Nat) = some comment_id
          rw [hcmid]
        · rw [if_neg hqy] at hsome ⊢
          obtain ⟨cm, hcmm, hcmeq⟩ := hinv3 y hy hsome
          refine ⟨_, List.mem_map.mpr ⟨_, List.mem_map.mpr ⟨cm, hcmm, rfl⟩, rfl⟩, ?_⟩
          rw [hgc2_id, hgold_id]
          exact hcmeq
    · -- stale accepted_answer_id pointing at no comment row: impossible
      have hsome : post.accepted_answer_id.isSome = true := by rw [hold]; rfl
      obtain ⟨cm0, hcm0, heq0⟩ := hinv3 post hpostmem hsome
      rw [hold] at heq0
      have hid0 : cm0.id = old_id := Option.some.inj heq0
      exact absurd (by simp [hid0]) (List.find?_eq_none.mp holdc cm0 hcm0)

theorem at_most_one_accepted (db : DB) (hcu : CommentsUniqueIds db) (hinv : AcceptInv db) :
    ∀ p ∈ db.posts, ∀ c1 ∈ db.comments, ∀ c2 ∈ db.comments,
      c1.post_id = p.id → c2.post_id = p.id →
      c1.is_accepted = true → c2.is_accepted = true → c1 = c2 := by
  intro p hp c1 h1 c2 h2 hp1 hp2 ha1 ha2
  have e1 := hinv.1 c1 h1 ha1 p hp hp1.symm
  have e2 := hinv.1 c2 h2 ha2 p hp hp2.symm
  exact eq_of_pairwise_key hcu h1 h2 (Option.some.inj (e1.symm.trans e2))

theorem accepted_id_references_accepted_comment (db : DB) (hinv : AcceptInv db) :
    ∀ p ∈ db.posts, ∀ cid, p.accepted_answer_id = some cid →
      ∃ cm ∈ db.comments, cm.id = cid ∧ cm.post_id = p.id ∧ cm.is_accepted = true := by
  intro p hp cid hcid
  obtain ⟨cm, hcmm, hcmeq⟩ := hinv.2.2 p hp (by rw [hcid]; rfl)
  have hid : cm.id = cid := by
    rw [hcid] at hcmeq
    exact Option.some.inj hcmeq
  obtain ⟨hpost, hacc⟩ := hinv.2.1 p hp cm hcmm (by rw [hcid, hid])
  exact ⟨cm, hcmm, hid, hpost, hacc⟩

/-- C2: `accept_answer` preserves the accepted-answer invariant: with unique
primary keys and the invariant holding before the call, every successful
accept, transfer, or unaccept re-establishes it; consequently at most one
comment per post is accepted afterwards, and a set `accepted_answer_id`
references an accepted, same-post comment. -/
theorem accept_answer_preserves_accept_invariant
    (db : DB) (c : Cache) (post_id comment_id : Nat) (cu : User) (cf : Bool)
    (db' : DB) (c' : Cache) (r : AcceptResult)
    (hpu : PostsUniqueIds db) (hcu : CommentsUniqueIds db) (hinv : AcceptInv db)
    (hrun : accept_answer db c post_id comment_id cu cf = .ok (db', c', r)) :
    (PostsUniqueIds db' ∧ CommentsUniqueIds db' ∧ AcceptInv db') ∧
    (∀ p ∈ db'.posts, ∀ c1 ∈ db'.comments, ∀ c2 ∈ db'.comments,
      c1.post_id = p.id → c2.post_id = p.id →
      c1.is_accepted = true → c2.is_accepted = true → c1 = c2) ∧
    (∀ p ∈ db'.posts, ∀ cid, p.accepted_answer_id = some cid →
      ∃ cm ∈ db'.comments, cm.id = cid ∧ cm.post_id = p.id ∧ cm.is_accepted = true) := by
  obtain ⟨hpu', hcu', hinv'⟩ :=
    accept_answer_inv_step db c post_id comment_id cu cf db' c' r hpu hcu hinv hrun
  exact ⟨⟨hpu', hcu', hinv'⟩, at_most_one_accepted db' hcu' hinv',
    accepted_id_references_accepted_comment db' hinv'⟩

/-- Witness for C2: a concrete accept run on a one-question store. -/
theorem accept_answer_preserves_accept_invariant_witness :
    (PostsUniqueIds sampleDB ∧ CommentsUniqueIds sampleDB ∧ AcceptInv sampleDB) ∧
    (∀ db' c' r, accept_answer sampleDB [] 1 1 sampleAuthor false = .ok (db', c', r) →
      (PostsUniqueIds db' ∧ CommentsUniqueIds db' ∧ AcceptInv db') ∧
      (∀ p ∈ db'.posts, ∀ c1 ∈ db'.comments, ∀ c2 ∈ db'.comments,
        c1.post_id = p.id → c2.post_id = p.id →
        c1.is_accepted = true → c2.is_accepted = true → c1 = c2) ∧
      (∀ p ∈ db'.posts, ∀ cid, p.accepted_answer_id = some cid →
        ∃ cm ∈ db'.comments, cm.id = cid ∧ cm.post_id = p.id ∧ cm.is_accepted = true)) :=
  ⟨⟨by decide, by decide, by decide⟩, fun db' c' r h =>
    accept_answer_preserves_accept_invariant sampleDB [] 1 1 sampleAuthor false db' c' r
      (by decide) (by decide) (by decide) h⟩

/-- C3: transferring the accepted answer from comment `c1` (author `uC`) to a
different eligible comment `c2` (author `uD`) in one `accept_answer` call
clears `c1.is_accepted`, takes 15 karma from `uC`, sets `c2.is_accepted`,
grants 15 karma to `uD`, and repoints `accepted_answer_id` at `c2` — all in
the single atomic store update of one successful call. -/
theorem accept_transfer_effects
    (db : DB) (c : Cache) (post_id cid1 cid2 : Nat) (cu : User) (cf : Bool)
    (p : Post) (c1 c2 : Comment) (uC uD : User)
    (hp : db.posts.find? (fun q : Post => q.id == post_id && !q.is_deleted) = some p)
    (hauth : p.author_id = cu.id) (hq : p.post_type = .question)
    (hacc : p.accepted_answer_id = some cid1)
    (hc1 : db.comments.find? (fun z : Comment => z.id == cid1) = some c1)
    (hc2 : db.comments.find?
      (fun z : Comment => z.id == cid2 && z.post_id == post_id && !z.is_deleted) = some c2)
    (hne : cid1 ≠ cid2)
    (hC : db.users.find? (fun x : User => x.id == c1.author_id) = some uC)
    (hD : db.users.find? (fun x : User => x.id == c2.author_id) = some uD)
    (hCD : c1.author_id ≠ c2.author_id) :
    ∃ db' c', accept_answer db c post_id cid2 cu cf = .ok (db', c', ⟨"Answer accepted", true⟩) ∧
      db'.comments.find? (fun z : Comment => z.id == cid1) = some { c1 with is_accepted := false } ∧
      db'.comments.find? (fun z : Comment => z.id == cid2 && z.post_id == post_id && !z.is_deleted)
        = some { c2 with is_accepted := true } ∧
      db'.posts.find? (fun q : Post => q.id == post_id && !q.is_deleted)
        = some { p with accepted_answer_id := some cid2 } ∧
      db'.users.find? (fun x : User => x.id == c1.author_id)
        = some { uC with karma_score := uC.karma_score - 15 } ∧
      db'.users.find? (fun x : User => x.id == c2.author_id)
        = some { uD with karma_score := uD.karma_score + 15 } := by
  have huC : uC.id = c1.author_id := by simpa using List.find?_some hC
  have huD : uD.id = c2.author_id := by simpa using List.find?_some hD
  have hbne1 : (p.author_id != cu.id) = false := by simp [hauth]
  have hbne2 : (p.post_type != PostType.question) = false := by simp [hq]
  have hsomebeq : ((some cid1 : Option Nat) == some cid2) = false := by
    simp [hne]
  have h_us1_D : (updateFirst (fun x : User => x.id == uC.id)
      (fun u : User => { u with karma_score := u.karma_score - 15 }) db.users).find?
      (fun x : User => x.id == c2.author_id) = some uD := by
    rw [find?_updateFirst_other (fun x : User => x.id == uC.id) (fun x : User => x.id == c2.author_id)
      (fun u : User => { u with karma_score := u.karma_score - 15 }) (fun x => rfl) ?_ db.users]
    · exact hD
    · intro x hx
      simp only [beq_iff_eq] at hx
      show (x.id == uC.id) = false
      rw [hx, huC]
      exact beq_eq_false_iff_ne.mpr (fun h => hCD h.symm)
  simp only [accept_answer, hp, hbne1, hbne2, hc2, hacc, hsomebeq, Bool.and_false,
    Bool.false_eq_true, if_false, hc1, hC, h_us1_D, updUserIfSome, updLivePost]
  refine ⟨_, _, rfl, ?_, ?_, ?_, ?_, ?_⟩
  · show (updateFirst (fun cm => cm.id == cid2 && cm.post_id == post_id && !cm.is_deleted)
        (fun cm : Comment => { cm with is_accepted := true })
        (updateFirst (fun cm => cm.id == cid1) (fun cm : Comment => { cm with is_accepted := false })
          db.comments)).find? (fun z : Comment => z.id == cid1) = some { c1 with is_accepted := false }
    rw [find?_updateFirst_other
      (fun z : Comment => z.id == cid2 && z.post_id == post_id && !z.is_deleted)
      (fun z : Comment => z.id == cid1) (fun cm : Comment => { cm with is_accepted := true }) (fun x => rfl) ?_]
    · rw [find?_updateFirst_same (fun z : Comment => z.id == cid1)
        (fun cm : Comment => { cm with is_accepted := false }) (fun x => rfl), hc1]
      rfl
    · intro x hx
      simp only [beq_iff_eq] at hx
      show (x.id == cid2 && x.post_id == post_id && !x.is_deleted) = false
      have hfst : (x.id == cid2) = false := by
        rw [hx]
        exact beq_eq_false_iff_ne.mpr hne
      simp [hfst]
  · show (updateFirst (fun cm => cm.id == cid2 && cm.post_id == post_id && !cm.is_deleted)
        (fun cm : Comment => { cm with is_accepted := true })
        (updateFirst (fun cm => cm.id == cid1) (fun cm : Comment => { cm with is_accepted := false })
          db.comments)).find?
        (fun z : Comment => z.id == cid2 && z.post_id == post_id && !z.is_deleted)
        = some { c2 with is_accepted := true }
    rw [find?_updateFirst_same
      (fun z : Comment => z.id == cid2 && z.post_id == post_id && !z.is_deleted)
      (fun cm : Comment => { cm with is_accepted := true }) (fun x => rfl)]
    rw [find?_updateFirst_other (fun z : Comment => z.id == cid1)
      (fun z : Comment => z.id == cid2 && z.post_id == post_id && !z.is_deleted)
      (fun cm : Comment => { cm with is_accepted := false }) (fun x => rfl) ?_]
    · rw [hc2]
      rfl
    · intro x hx
      simp only [Bool.and_eq_true, beq_iff_eq] at hx
      show (x.id == cid1) = false
      rw [hx.1.1]
      exact beq_eq_false_iff_ne.mpr (fun h => hne h.symm)
  · show (updateFirst (fun q : Post => q.id == post_id && !q.is_deleted)
        (fun q : Post => { q with accepted_answer_id := some cid2 }) db.posts).find?
        (fun q : Post => q.id == post_id && !q.is_deleted)
        = some { p with accepted_answer_id := some cid2 }
    rw [find?_updateFirst_same (fun q : Post => q.id == post_id && !q.is_deleted)
      (fun q : Post => { q with accepted_answer_id := some cid2 }) (fun x => rfl), hp]
    rfl
  · show (updateFirst (fun x : User => x.id == uD.id)
        (fun u : User => { u with karma_score := u.karma_score + 15 })
        (updateFirst (fun x : User => x.id == uC.id)
          (fun u : User => { u with karma_score := u.karma_score - 15 }) db.users)).find?
        (fun x : User => x.id == c1.author_id)
        = some { uC with karma_score := uC.karma_score - 15 }
    rw [find?_updateFirst_other (fun x : User => x.id == uD.id) (fun x : User => x.id == c1.author_id)
      (fun u : User => { u with karma_score := u.karma_score + 15 }) (fun x => rfl) ?_]
    · rw [show (fun x : User => x.id == c1.author_id) = (fun x : User => x.id == uC.id) from
        funext fun x => by rw [huC]]
      rw [find?_updateFirst_same (fun x : User => x.id == uC.id)
        (fun u : User => { u with karma_score := u.karma_score - 15 }) (fun x => rfl)]
      rw [show db.users.find? (fun x : User => x.id == uC.id) = some uC from by
        rw [huC]; exact hC]
      rfl
    · intro x hx
      simp only [beq_iff_eq] at hx
      show (x.id == uD.id) = false
      rw [hx, huD]
      exact beq_eq_false_iff_ne.mpr hCD
  · show (updateFirst (fun x : User => x.id == uD.id)
        (fun u : User => { u with karma_score := u.karma_score + 15 })
        (updateFirst (fun x : User => x.id == uC.id)
          (fun u : User => { u with karma_score := u.karma_score - 15 }) db.users)).find?
        (fun x : User => x.id == c2.author_id)
        = some { uD with karma_score := uD.karma_score + 15 }
    rw [show (fun x : User => x.id == c2.author_id) = (fun x : User => x.id == uD.id) from
      funext fun x => by rw [huD]]
    rw [find?_updateFirst_same (fun x : User => x.id == uD.id)
      (fun u : User => { u with karma_score := u.karma_score + 15 }) (fun x => rfl)]
    rw [show (updateFirst (fun x : User => x.id == uC.id)
        (fun u : User => { u with karma_score := u.karma_score - 15 }) db.users).find?
        (fun x : User => x.id == uD.id) = some uD from by
      rw [huD]; exact h_us1_D]
    rfl

/-- Witness for C3 at the concrete transfer scenario. -/
theorem accept_transfer_effects_witness :
    (transferDB.posts.find? (fun q : Post => q.id == 1 && !q.is_deleted) = some tPost ∧
     tPost.author_id = sampleAuthor.id ∧ tPost.post_type = .question ∧
     tPost.accepted_answer_id = some 1 ∧
     transferDB.comments.find? (fun z : Comment => z.id == 1) = some tC1 ∧
     transferDB.comments.find?
       (fun z : Comment => z.id == 2 && z.post_id == 1 && !z.is_deleted) = some tC2 ∧
     (1 : Nat) ≠ 2 ∧
     transferDB.users.find? (fun x : User => x.id == tC1.author_id) = some tUC ∧
     transferDB.users.find? (fun x : User => x.id == tC2.author_id) = some tUD ∧
     tC1.author_id ≠ tC2.author_id) ∧
    (∃ db' c', accept_answer transferDB [] 1 2 sampleAuthor false
        = .ok (db', c', ⟨"Answer accepted", true⟩) ∧
      db'.comments.find? (fun z : Comment => z.id == 1) = some { tC1 with is_accepted := false } ∧
      db'.comments.find? (fun z : Comment => z.id == 2 && z.post_id == 1 && !z.is_deleted)
        = some { tC2 with is_accepted := true } ∧
      db'.posts.find? (fun q : Post => q.id == 1 && !q.is_deleted)
        = some { tPost with accepted_answer_id := some 2 } ∧
      db'.users.find? (fun x : User => x.id == tC1.author_id)
        = some { tUC with karma_score := tUC.karma_score - 15 } ∧
      db'.users.find? (fun x : User => x.id == tC2.author_id)
        = some { tUD with karma_score := tUD.karma_score + 15 }) :=
  ⟨⟨by decide, by decide, by decide, by decide, by decide, by decide, by decide,
    by decide, by decide, by decide⟩,
   accept_transfer_effects transferDB [] 1 1 2 sampleAuthor false tPost tC1 tC2 tUC tUD
     (by decide) (by decide) (by decide) (by decide) (by decide) (by decide) (by decide)
     (by decide) (by decide) (by decide)⟩

/-- C10: `accept_answer` never touches `is_answered`: across any successful
accept, transfer, or unaccept, every post keeps its previous `is_answered`
value (default `false`), even while `accepted_answer_id` is set or cleared —
so `is_answered` does not track the presence of an accepted answer. -/
theorem accept_answer_preserves_is_answered
    (db : DB) (c : Cache) (post_id comment_id : Nat) (cu : User) (cf : Bool)
    (db' : DB) (c' : Cache) (r : AcceptResult)
    (hrun : accept_answer db c post_id comment_id cu cf = .ok (db', c', r)) :
    db'.posts.map (fun p => p.is_answered) = db.posts.map (fun p => p.is_answered) := by
  obtain ⟨post, comment, hp, _, _, hcm, hbr⟩ :=
    accept_answer_shape db c post_id comment_id cu cf db' c' r hrun
  rcases hbr with ⟨_, _, _, hps, _, _⟩ | ⟨_, hps, _, _⟩
  · rw [hps]
    exact map_updateFirst _ (fun p : Post => { p with accepted_answer_id := none })
      (fun p : Post => p.is_answered) (fun x => rfl) _
  · rw [hps]
    exact map_updateFirst _ (fun p : Post => { p with accepted_answer_id := some comment_id })
      (fun p : Post => p.is_answered) (fun x => rfl) _

/-- Witness for C10: accepting an answer on the sample store sets
`accepted_answer_id` but leaves `is_answered` as it was. -/
theorem accept_answer_preserves_is_answered_witness :
    sampleDB.posts.map (fun p => p.is_answered) = [false] ∧
    ∀ db' c' r, accept_answer sampleDB [] 1 1 sampleAuthor false = .ok (db', c', r) →
      db'.posts.map (fun p => p.is_answered) = sampleDB.posts.map (fun p => p.is_answered) :=
  ⟨by decide, fun db' c' r h =>
    accept_answer_preserves_is_answered sampleDB [] 1 1 sampleAuthor false db' c' r h⟩

/-- Counterexample to C9 as stated: the claim says a successful toggle-off
returns a well-formed success response carrying the removed indicator rather
than an error. On a concrete store where the voter already upvoted, both
endpoints COMMIT the removal — the vote row is gone from the resulting
store — yet the returned `{"message", "action"}` dict fails serialization
against the declared `response_model=VoteResponse`, so the client receives
the response-validation 500 instead of a success body. -/
theorem vote_toggle_off_returns_500_cex :
    ((vote_on_post_endpoint votedDB [] 1 sampleVoter .upvote false).toOption.map
        (fun x => x.2.2) = some .responseValidationError) ∧
    ((vote_on_post_endpoint votedDB [] 1 sampleVoter .upvote false).toOption.map
        (fun x => x.1.post_votes) = some []) ∧
    ((vote_on_comment_endpoint votedDB [] 1 sampleVoter .upvote false).toOption.map
        (fun x => x.2.2) = some .responseValidationError) ∧
    ((vote_on_comment_endpoint votedDB [] 1 sampleVoter .upvote false).toOption.map
        (fun x => x.1.comment_votes) = some []) := by
  decide

/-- C9 (amended): a successful vote creation or change serializes to the
declared response model, the 201 body carrying the resulting vote's type;
but a successful toggle-off returns the `{"message", "action"}` dict, which
fails the `response_model=VoteResponse` validation, so the client receives a
500 response-validation error (the removal itself having been committed) —
and the 500 arises in exactly the toggle-off case (an existing vote of the
submitted type). A failed lookup carries the specific 404 detail, never a
raw exception string. -/
theorem vote_endpoint_response_model :
    (∀ db c post_id u t cf db' c' r,
      vote_on_post_endpoint db c post_id u t cf = .ok (db', c', r) →
      (r = .responseValidationError ∨ r = .body ⟨t⟩) ∧
      (r = .responseValidationError ↔
        ∃ ev, db.post_votes.find?
            (fun v => v.post_id == post_id && v.user_id == u.id) = some ev ∧
          ev.vote_type = t)) ∧
    (∀ db c post_id u t cf e,
      vote_on_post_endpoint db c post_id u t cf = .error e →
      e = .notFound "Post not found") ∧
    (∀ db c comment_id u t cf db' c' r,
      vote_on_comment_endpoint db c comment_id u t cf = .ok (db', c', r) →
      (r = .responseValidationError ∨ r = .body ⟨t⟩) ∧
      (r = .responseValidationError ↔
        ∃ ev, db.comment_votes.find?
            (fun v => v.comment_id == comment_id && v.user_id == u.id) = some ev ∧
          ev.vote_type = t)) ∧
    (∀ db c comment_id u t cf e,
      vote_on_comment_endpoint db c comment_id u t cf = .error e →
      e = .notFound "Comment not found") := by
  refine ⟨?_, ?_, ?_, ?_⟩
  · intro db c post_id u t cf db' c' r hrun
    cases hv : vote_on_post db c post_id u t cf with
    | error e0 => simp [vote_on_post_endpoint, hv] at hrun
    | ok res =>
      obtain ⟨db0, c0, out⟩ := res
      simp only [vote_on_post_endpoint, hv, Except.ok.injEq, Prod.mk.injEq] at hrun
      obtain ⟨rfl, rfl, rfl⟩ := hrun
      rcases (vote_on_post_shape db c post_id u t cf db0 c0 out hv).2 with
        ⟨ev, hfv, hevt, _, hout⟩ | ⟨ev, hfv, hevt, _, hout⟩ | ⟨hfv, _, hout⟩
      · subst hout
        exact ⟨Or.inl rfl, fun _ => ⟨ev, hfv, hevt⟩, fun _ => rfl⟩
      · subst hout
        refine ⟨Or.inr rfl, ?_, ?_⟩
        · intro h; simp [serializeVoteOutcome] at h
        · rintro ⟨ev', hfv', hevt'⟩
          rw [hfv] at hfv'
          rw [← Option.some.inj hfv'] at hevt'
          exact absurd hevt' hevt
      · subst hout
        refine ⟨Or.inr rfl, ?_, ?_⟩
        · intro h; simp [serializeVoteOutcome] at h
        · rintro ⟨ev', hfv', _⟩
          rw [hfv] at hfv'
          exact absurd hfv' (by simp)
  · intro db c post_id u t cf e hrun
    cases hv : vote_on_post db c post_id u t cf with
    | error e0 =>
      simp only [vote_on_post_endpoint, hv, Except.error.injEq] at hrun
      subst hrun
      exact (vote_on_post_error db c post_id u t cf e0 hv).1
    | ok res =>
      obtain ⟨db0, c0, out⟩ := res
      simp [vote_on_post_endpoint, hv] at hrun
  · intro db c comment_id u t cf db' c' r hrun
    cases hv : vote_on_comment db c comment_id u t cf with
    | error e0 => simp [vote_on_comment_endpoint, hv] at hrun
    | ok res =>
      obtain ⟨db0, c0, out⟩ := res
      simp only [vote_on_comment_endpoint, hv, Except.ok.injEq, Prod.mk.injEq] at hrun
      obtain ⟨rfl, rfl, rfl⟩ := hrun
      rcases (vote_on_comment_shape db c comment_id u t cf db0 c0 out hv).2 with
        ⟨ev, hfv, hevt, _, hout⟩ | ⟨ev, hfv, hevt, _, hout⟩ | ⟨hfv, _, hout⟩
      · subst hout
        exact ⟨Or.inl rfl, fun _ => ⟨ev, hfv, hevt⟩, fun _ => rfl⟩
      · subst hout
        refine ⟨Or.inr rfl, ?_, ?_⟩
        · intro h; simp [serializeVoteOutcome] at h
        · rintro ⟨ev', hfv', hevt'⟩
          rw [hfv] at hfv'
          rw [← Option.some.inj hfv'] at hevt'
          exact absurd hevt' hevt
      · subst hout
        refine ⟨Or.inr rfl, ?_, ?_⟩
        · intro h; simp [serializeVoteOutcome] at h
        · rintro ⟨ev', hfv', _⟩
          rw [hfv] at hfv'
          exact absurd hfv' (by simp)
  · intro db c comment_id u t cf e hrun
    cases hv : vote_on_comment db c comment_id u t cf with
    | error e0 =>
      simp only [vote_on_comment_endpoint, hv, Except.error.injEq] at hrun
      subst hrun
      exact (vote_on_comment_error db c comment_id u t cf e0 hv).1
    | ok res =>
      obtain ⟨db0, c0, out⟩ := res
      simp [vote_on_comment_endpoint, hv] at hrun

/-- Witness for C9 (amended) on concrete stores: any successful endpoint run
on the already-upvoted store satisfies the enumeration (its toggle-off case
being the response-validation 500), and a concrete missing-post request
yields the specific 404. -/
theorem vote_endpoint_response_model_witness :
    (∀ db' c' r, vote_on_post_endpoint votedDB [] 1 sampleVoter .upvote false
        = .ok (db', c', r) →
      (r = .responseValidationError ∨ r = .body ⟨.upvote⟩) ∧
      (r = .responseValidationError ↔
        ∃ ev, votedDB.post_votes.find?
            (fun v => v.post_id == 1 && v.user_id == sampleVoter.id) = some ev ∧
          ev.vote_type = .upvote)) ∧
    (∀ e, vote_on_post_endpoint sampleDB [] 99 sampleVoter .upvote false = .error e →
      e = .notFound "Post not found") :=
  ⟨fun db' c' r h =>
    vote_endpoint_response_model.1 votedDB [] 1 sampleVoter .upvote false db' c' r h,
   fun e h => vote_endpoint_response_model.2.1 sampleDB [] 99 sampleVoter .upvote false e h⟩

/-- A successful `vote_on_post` always leaves the cache swept by the common
invalidation block, keyed by the live post's author lookup. -/
theorem vote_on_post_cache_component (db : DB) (c : Cache) (post_id : Nat)
    (u : User) (t : VoteType) (cf : Bool) (db' : DB) (c' : Cache) (out : VoteOutcome)
    (hrun : vote_on_post db c post_id u t cf = .ok (db', c', out)) :
    ∃ p, db.posts.find? (fun q => q.id == post_id && !q.is_deleted) = some p ∧
      c' = postVoteCacheSweep cf c post_id
        (db.users.find? (fun x => x.id == p.author_id)) := by
  cases hp : db.posts.find? (fun q => q.id == post_id && !q.is_deleted) with
  | none => simp [vote_on_post, hp] at hrun
  | some p =>
    refine ⟨p, rfl, ?_⟩
    cases hv : db.post_votes.find? (fun v => v.post_id == post_id && v.user_id == u.id) with
    | none =>
      cases t with
      | upvote =>
        simp only [vote_on_post, hp, hv, upvote_beq_upvote, if_true,
          Except.ok.injEq, Prod.mk.injEq] at hrun
        exact hrun.2.1.symm
      | downvote =>
        simp only [vote_on_post, hp, hv, downvote_beq_upvote, Bool.false_eq_true, if_false,
          Except.ok.injEq, Prod.mk.injEq] at hrun
        exact hrun.2.1.symm
    | some ev =>
      cases hevt : ev.vote_type with
      | upvote =>
        cases t with
        | upvote =>
          simp only [vote_on_post, hp, hv, hevt, upvote_beq_upvote, if_true,
            Except.ok.injEq, Prod.mk.injEq] at hrun
          exact hrun.2.1.symm
        | downvote =>
          simp only [vote_on_post, hp, hv, hevt, upvote_beq_downvote, upvote_beq_upvote,
            Bool.false_eq_true, if_false, if_true, Except.ok.injEq, Prod.mk.injEq] at hrun
          exact hrun.2.1.symm
      | downvote =>
        cases t with
        | upvote =>
          simp only [vote_on_post, hp, hv, hevt, downvote_beq_upvote, downvote_beq_downvote,
            Bool.false_eq_true, if_false, if_true, Except.ok.injEq, Prod.mk.injEq] at hrun
          exact hrun.2.1.symm
        | downvote =>
          simp only [vote_on_post, hp, hv, hevt, downvote_beq_downvote, if_true,
            Except.ok.injEq, Prod.mk.injEq] at hrun
          exact hrun.2.1.symm

/-- C6: after any successful `vote_on_post` mutation (create, change, or
toggle-off) with a healthy cache, the invalidation sweep removes the exact
keys `post:{id}` and `user:profile:{author}`, and every `posts:list:*` and
`users:top:*` key: each subsequent read of those keys misses, so none of them
can serve pre-mutation data. -/
theorem vote_on_post_cache_invalidation (db : DB) (c : Cache) (post_id : Nat)
    (u : User) (t : VoteType) (db' : DB) (c' : Cache) (out : VoteOutcome)
    (p : Post) (a : User)
    (hp : db.posts.find? (fun q => q.id == post_id && !q.is_deleted) = some p)
    (ha : db.users.find? (fun x => x.id == p.author_id) = some a)
    (hrun : vote_on_post db c post_id u t false = .ok (db', c', out)) :
    cacheGet c' ("post:" ++ toString post_id) = none ∧
    cacheGet c' ("user:profile:" ++ a.display_name) = none ∧
    (∀ k, "posts:list:".isPrefixOf k = true → cacheGet c' k = none) ∧
    (∀ k, "users:top:".isPrefixOf k = true → cacheGet c' k = none) := by
  obtain ⟨p', hp', hc⟩ :=
    vote_on_post_cache_component db c post_id u t false db' c' out hrun
  have hpe : p' = p := Option.some.inj (hp'.symm.trans hp)
  subst hpe
  rw [ha] at hc
  simp only [postVoteCacheSweep, Bool.false_eq_true, if_false] at hc
  subst hc
  refine ⟨?_, ?_, ?_, ?_⟩
  · exact cacheGet_none_scanDelete _ _ _ (cacheGet_none_delete _ _ _
      (cacheGet_none_scanDelete _ _ _ (cacheGet_delete_self c _)))
  · exact cacheGet_none_scanDelete _ _ _ (cacheGet_delete_self _ _)
  · intro k hk
    exact cacheGet_none_scanDelete _ _ _ (cacheGet_none_delete _ _ _
      (cacheGet_scanDelete_pre _ _ _ hk))
  · intro k hk
    exact cacheGet_scanDelete_pre _ _ _ hk

/-- Witness for C6 at a concrete store and cache. -/
theorem vote_on_post_cache_invalidation_witness :
    (sampleDB.posts.find? (fun q : Post => q.id == 1 && !q.is_deleted) = some { id := 1, author_id := 1 } ∧
     sampleDB.users.find? (fun x : User => x.id == (1 : Nat)) = some sampleAuthor) ∧
    ∀ db' c' out, vote_on_post sampleDB sampleCache 1 sampleVoter .upvote false
        = .ok (db', c', out) →
      cacheGet c' ("post:" ++ toString (1 : Nat)) = none ∧
      cacheGet c' ("user:profile:" ++ sampleAuthor.display_name) = none ∧
      (∀ k, "posts:list:".isPrefixOf k = true → cacheGet c' k = none) ∧
      (∀ k, "users:top:".isPrefixOf k = true → cacheGet c' k = none) :=
  ⟨⟨by decide, by decide⟩, fun db' c' out h =>
    vote_on_post_cache_invalidation sampleDB sampleCache 1 sampleVoter .upvote db' c' out
      { id := 1, author_id := 1 } sampleAuthor (by decide) (by decide) h⟩

/-- C7: a failing cache never changes a write handler's outcome.  For every
write endpoint and all arguments, running with a cache that raises on every
operation produces exactly the same store state and response as running with
a healthy cache: the invalidation sweeps are swallowed try/except blocks that
can only affect the cache itself. -/
theorem cache_failure_never_changes_result :
    (∀ db c post_id u t, dropCache (vote_on_post db c post_id u t true)
      = dropCache (vote_on_post db c post_id u t false)) ∧
    (∀ db c comment_id u t, dropCache (vote_on_comment db c comment_id u t true)
      = dropCache (vote_on_comment db c comment_id u t false)) ∧
    (∀ db c post_id comment_id cu, dropCache (accept_answer db c post_id comment_id cu true)
      = dropCache (accept_answer db c post_id comment_id cu false)) ∧
    (∀ pcc db c post_id cd cu, dropCache (create_comment pcc db c post_id cd cu true)
      = dropCache (create_comment pcc db c post_id cd cu false)) ∧
    (∀ db c pd cu, dropCache (update_profile db c pd cu true)
      = dropCache (update_profile db c pd cu false)) ∧
    (∀ hp ec tok db c reg, dropCache (register_user hp ec tok db c reg true)
      = dropCache (register_user hp ec tok db c reg false)) := by
  refine ⟨?_, ?_, ?_, ?_, ?_, ?_⟩
  · intro db c post_id u t
    unfold vote_on_post
    dsimp only
    repeat' (first | rfl | split)
  · intro db c comment_id u t
    unfold vote_on_comment
    dsimp only
    repeat' (first | rfl | split)
  · intro db c post_id comment_id cu
    unfold accept_answer
    dsimp only
    repeat' (first | rfl | split)
  · intro pcc db c post_id cd cu
    unfold create_comment
    dsimp only
    repeat' (first | rfl | split)
  · intro db c pd cu
    unfold update_profile
    dsimp only
    repeat' (first | rfl | split)
  · intro hp ec tok db c reg
    unfold register_user
    dsimp only
    repeat' (first | rfl | split)

/-- Counterexample to C8 as stated: a vote on a soft-deleted target is NOT
permitted — both vote endpoints reject it with 404, so "locked or
soft-deleted targets still accept votes" fails on the soft-deleted half. -/
theorem vote_on_deleted_target_rejected_cex :
    vote_on_post deletedDB [] 1 sampleVoter .upvote false
      = .error (.notFound "Post not found") ∧
    vote_on_comment deletedDB [] 1 sampleVoter .upvote false
      = .error (.notFound "Comment not found") :=
  ⟨rfl, rfl⟩

/-- C8 (amended): votes on a LOCKED target are still permitted and counted,
but votes on a soft-deleted (or missing) target yield NotFound; comment
creation on a locked post is rejected with Forbidden; in the accept path a
missing/soft-deleted post or comment yields NotFound, a non-author yields
Forbidden, and a non-question post yields InvalidOperation (HTTP 400). -/
theorem vote_and_accept_error_handling :
    (∀ db c post_id u t cf (p : Post),
      db.posts.find? (fun q => q.id == post_id && !q.is_deleted) = some p →
      p.is_locked = true → PostVoteSimInv db post_id u.id →
      ∃ db' c' out, vote_on_post db c post_id u t cf = .ok (db', c', out) ∧
        postPairLedger db' post_id u.id =
          (postPairLedger db post_id u.id).map (fun s => specStep 10 2 s t)) ∧
    (∀ db c post_id u t cf,
      db.posts.find? (fun q => q.id == post_id && !q.is_deleted) = none →
      vote_on_post db c post_id u t cf = .error (.notFound "Post not found")) ∧
    (∀ db c comment_id u t cf,
      db.comments.find? (fun z => z.id == comment_id && !z.is_deleted) = none →
      vote_on_comment db c comment_id u t cf = .error (.notFound "Comment not found")) ∧
    (∀ pcc db c post_id cd cu cf (p : Post),
      db.posts.find? (fun q => q.id == post_id && !q.is_deleted) = some p →
      p.is_locked = true →
      create_comment pcc db c post_id cd cu cf
        = .error (.forbidden "Post is locked for comments")) ∧
    (∀ db c post_id comment_id cu cf,
      db.posts.find? (fun q => q.id == post_id && !q.is_deleted) = none →
      accept_answer db c post_id comment_id cu cf = .error (.notFound "Post not found")) ∧
    (∀ db c post_id comment_id cu cf (p : Post),
      db.posts.find? (fun q => q.id == post_id && !q.is_deleted) = some p →
      p.author_id ≠ cu.id →
      accept_answer db c post_id comment_id cu cf
        = .error (.forbidden "Only the post author can accept answers")) ∧
    (∀ db c post_id comment_id cu cf (p : Post),
      db.posts.find? (fun q => q.id == post_id && !q.is_deleted) = some p →
      p.author_id = cu.id → p.post_type ≠ .question →
      accept_answer db c post_id comment_id cu cf
        = .error (.badRequest "Only questions can have accepted answers")) ∧
    (∀ db c post_id comment_id cu cf (p : Post),
      db.posts.find? (fun q => q.id == post_id && !q.is_deleted) = some p →
      p.author_id = cu.id → p.post_type = .question →
      db.comments.find?
        (fun z => z.id == comment_id && z.post_id == post_id && !z.is_deleted) = none →
      accept_answer db c post_id comment_id cu cf
        = .error (.notFound "Comment not found")) := by
  refine ⟨?_, ?_, ?_, ?_, ?_, ?_, ?_, ?_⟩
  · intro db c post_id u t cf p hp hlock hinv
    obtain ⟨db', c', out, h1, _, h3⟩ := vote_on_post_step db c post_id u t cf hinv
    exact ⟨db', c', out, h1, h3⟩
  · intro db c post_id u t cf h
    simp [vote_on_post, h]
  · intro db c comment_id u t cf h
    simp [vote_on_comment, h]
  · intro pcc db c post_id cd cu cf p hp hlock
    simp [create_comment, hp, hlock]
  · intro db c post_id comment_id cu cf h
    simp [accept_answer, h]
  · intro db c post_id comment_id cu cf p hp hne
    simp [accept_answer, hp, hne]
  · intro db c post_id comment_id cu cf p hp hauth hq
    simp [accept_answer, hp, hauth, hq]
  · intro db c post_id comment_id cu cf p hp hauth hq hcm
    simp [accept_answer, hp, hauth, hq, hcm]

/-- Witness for C8 (amended) at concrete stores: locked post accepts the
vote, deleted targets 404, locked comment creation 403, non-author accept
403, non-question accept 400, missing comment 404. -/
theorem vote_and_accept_error_handling_witness :
    (lockedDB.posts.find? (fun q : Post => q.id == 1 && !q.is_deleted)
        = some { id := 1, author_id := 1, is_locked := true } ∧
      ({ id := 1, author_id := 1, is_locked := true } : Post).is_locked = true ∧
      PostVoteSimInv lockedDB 1 sampleVoter.id ∧
      ∃ db' c' out, vote_on_post lockedDB [] 1 sampleVoter .upvote false = .ok (db', c', out) ∧
        postPairLedger db' 1 sampleVoter.id =
          (postPairLedger lockedDB 1 sampleVoter.id).map (fun s => specStep 10 2 s .upvote)) ∧
    (vote_on_post deletedDB [] 1 sampleVoter .downvote false
      = .error (.notFound "Post not found")) ∧
    (vote_on_comment deletedDB [] 1 sampleVoter .downvote false
      = .error (.notFound "Comment not found")) ∧
    (create_comment (fun s => (s, ⟨s, false, false⟩)) lockedDB [] 1 ⟨"hi", none, false⟩
      sampleVoter false = .error (.forbidden "Post is locked for comments")) ∧
    (accept_answer deletedDB [] 1 1 sampleAuthor false = .error (.notFound "Post not found")) ∧
    (accept_answer sampleDB [] 1 1 sampleVoter false
      = .error (.forbidden "Only the post author can accept answers")) ∧
    (accept_answer discussionDB [] 1 1 sampleAuthor false
      = .error (.badRequest "Only questions can have accepted answers")) ∧
    (accept_answer sampleDB [] 1 99 sampleAuthor false
      = .error (.notFound "Comment not found")) :=
  ⟨⟨by decide, by decide, by decide,
    vote_and_accept_error_handling.1 lockedDB [] 1 sampleVoter .upvote false
      { id := 1, author_id := 1, is_locked := true } (by decide) (by decide) (by decide)⟩,
   vote_and_accept_error_handling.2.1 deletedDB [] 1 sampleVoter .downvote false (by decide),
   vote_and_accept_error_handling.2.2.1 deletedDB [] 1 sampleVoter .downvote false (by decide),
   vote_and_accept_error_handling.2.2.2.1 (fun s => (s, ⟨s, false, false⟩)) lockedDB [] 1
     ⟨"hi", none, false⟩ sampleVoter false { id := 1, author_id := 1, is_locked := true }
     (by decide) (by decide),
   vote_and_accept_error_handling.2.2.2.2.1 deletedDB [] 1 1 sampleAuthor false (by decide),
   vote_and_accept_error_handling.2.2.2.2.2.1 sampleDB [] 1 1 sampleVoter false
     { id := 1, author_id := 1 } (by decide) (by decide),
   vote_and_accept_error_handling.2.2.2.2.2.2.1 discussionDB [] 1 1 sampleAuthor false
     { id := 1, author_id := 1, post_type := .discussion } (by decide) (by decide) (by decide),
   vote_and_accept_error_handling.2.2.2.2.2.2.2 sampleDB [] 1 99 sampleAuthor false
     { id := 1, author_id := 1 } (by decide) (by decide) (by decide) (by decide)⟩

end SaladOverflow
